import Mathlib

/-!
Verification of the afloat-js domain library against its specification.

The TypeScript sources are shallowly embedded in Lean:

* JavaScript strings are modelled as `JStr := List Char`, and the string
  operations used by the code (`trim`, `toUpperCase`, `split`, `startsWith`,
  first-occurrence `replace`, `substring`, `join`) are implemented over
  character lists with JavaScript's semantics (ASCII case mapping, the four
  ASCII whitespace characters relevant to the data involved).
* External collaborators (the phone-number parser, the bank registry and
  `JSON.parse` for the legacy narration formats) are abstracted into a
  `ParseCtx` record of total functions returning `Option`/`Except` values,
  mirroring the `X | undefined` / throwing contracts the code relies on.
* Fallible code paths return `Option`; code that can throw inside a
  `try`/`catch` is modelled in `Except` with the catch applied explicitly.
-/

/-- JavaScript strings, modelled as lists of characters. -/
abbrev JStr := List Char

/-- ASCII upper-casing of a character, as done by `String.prototype.toUpperCase`
on the ASCII range (`a`..`z` map to `A`..`Z`, everything else is fixed). -/
def jsUpperChar (c : Char) : Char :=
  if 97 ≤ c.toNat ∧ c.toNat ≤ 122 then Char.ofNat (c.toNat - 32) else c

/-- ASCII lower-casing of a character (`A`..`Z` map to `a`..`z`). -/
def jsLowerChar (c : Char) : Char :=
  if 65 ≤ c.toNat ∧ c.toNat ≤ 90 then Char.ofNat (c.toNat + 32) else c

/-- The whitespace characters trimmed by `String.prototype.trim` that occur in
the modelled data: space, tab, line feed, carriage return. -/
def isWsChar (c : Char) : Bool :=
  c.toNat = 32 || c.toNat = 9 || c.toNat = 10 || c.toNat = 13

/-- `s.toUpperCase()` on the ASCII range. -/
def toUpperJ (s : JStr) : JStr := s.map jsUpperChar

/-- `s.toLowerCase()` on the ASCII range. -/
def toLowerJ (s : JStr) : JStr := s.map jsLowerChar

/-- `s.trim()`: remove whitespace from both ends. -/
def trimJ (s : JStr) : JStr :=
  (((s.dropWhile isWsChar).reverse.dropWhile isWsChar)).reverse

/-- `p.isPrefixOf s`, i.e. `s.startsWith(p)`. -/
def startsWithJ (p s : JStr) : Bool := p.isPrefixOf s

/-- Split `s` around the first occurrence of the pattern `p`: returns the part
before and the part after, or `none` when `p` does not occur in `s`.
(For nonempty `p`; the empty pattern never arises in the embedded code.) -/
def breakOn (p : JStr) (s : JStr) : Option (JStr × JStr) :=
  match s with
  | [] => none
  | c :: cs =>
    if p.isPrefixOf (c :: cs) then some ([], (c :: cs).drop p.length)
    else (breakOn p cs).map (fun ab => (c :: ab.1, ab.2))

theorem breakOn_some_length {p s a b : JStr} (hp : p ≠ [])
    (h : breakOn p s = some (a, b)) : b.length < s.length := by
  induction s generalizing a with
  | nil => simp [breakOn] at h
  | cons c cs ih =>
    unfold breakOn at h
    by_cases hpre : p.isPrefixOf (c :: cs)
    · rw [if_pos hpre] at h
      simp only [Option.some.injEq, Prod.mk.injEq] at h
      obtain ⟨_, hb⟩ := h
      subst hb
      have : 0 < p.length := List.length_pos.mpr hp
      simp [List.length_drop]
      omega
    · rw [if_neg hpre] at h
      cases hbr : breakOn p cs with
      | none => rw [hbr] at h; simp at h
      | some ab =>
        rw [hbr] at h
        simp only [Option.map_some', Option.some.injEq, Prod.mk.injEq] at h
        obtain ⟨_, hb⟩ := h
        subst hb
        have := ih (a := ab.1) (by rw [hbr])
        simp only [List.length_cons]
        omega

/-- Fuel-driven worker for `splitJ`; the fuel is an upper bound on the input
length, which shrinks at every found occurrence of the pattern. -/
def splitGo : Nat → JStr → JStr → List JStr
  | 0, _, s => [s]
  | fuel + 1, p, s =>
    match breakOn p s with
    | none => [s]
    | some (a, b) => a :: splitGo fuel p b

/-- `s.split(p)` for a nonempty pattern `p`, JavaScript semantics: split on
every occurrence, keeping empty chunks, always at least one chunk. -/
def splitJ (p : JStr) (s : JStr) : List JStr :=
  if p = [] then [s] else splitGo s.length p s

/-- `s.replace(p, r)` with a string pattern: replaces only the first
occurrence. -/
def replaceFirstJ (p r s : JStr) : JStr :=
  match breakOn p s with
  | none => s
  | some (a, b) => a ++ r ++ b

/-- `capitalizeFirstLetter` from `narration.ts`: first character upper-cased,
the rest lower-cased; the empty string maps to itself. -/
def capitalizeFirstLetter (s : JStr) : JStr :=
  match s with
  | [] => []
  | c :: cs => jsUpperChar c :: cs.map jsLowerChar

/-- `xs.join(sep)`. -/
def joinJ (sep : JStr) (xs : List JStr) : JStr := List.intercalate sep xs

/-! ## Facts about the character-level helpers -/

theorem char_toNat_ofNat (n : Nat) (h : n < 0xd800) : (Char.ofNat n).toNat = n := by
  have hv : n.isValidChar := Or.inl h
  simp only [Char.ofNat, hv, dite_true, Char.ofNatAux, Char.toNat, UInt32.toNat]
  simp [BitVec.toNat_ofNatLt]

theorem isWs_upper (c : Char) : isWsChar (jsUpperChar c) = isWsChar c := by
  unfold jsUpperChar
  by_cases h : 97 ≤ c.toNat ∧ c.toNat ≤ 122
  · rw [if_pos h]
    have h1 : c.toNat - 32 < 0xd800 := by omega
    unfold isWsChar
    rw [char_toNat_ofNat _ h1, Bool.eq_iff_iff]
    simp only [Bool.or_eq_true, decide_eq_true_eq]
    omega
  · rw [if_neg h]

theorem char_eq_iff_toNat (c d : Char) : c = d ↔ c.toNat = d.toNat := by
  constructor
  · intro h; rw [h]
  · intro h
    apply Char.ext
    apply UInt32.ext
    exact h

theorem upper_eq_space_iff (c : Char) : (jsUpperChar c = ' ') ↔ (c = ' ') := by
  unfold jsUpperChar
  by_cases h : 97 ≤ c.toNat ∧ c.toNat ≤ 122
  · rw [if_pos h]
    have h1 : c.toNat - 32 < 0xd800 := by omega
    rw [char_eq_iff_toNat, char_eq_iff_toNat c, char_toNat_ofNat _ h1]
    show _ - 32 = 32 ↔ _ = 32
    omega
  · rw [if_neg h]

theorem lower_upper (c : Char) : jsLowerChar (jsUpperChar c) = jsLowerChar c := by
  unfold jsUpperChar
  by_cases h : 97 ≤ c.toNat ∧ c.toNat ≤ 122
  · rw [if_pos h]
    have h1 : c.toNat - 32 < 0xd800 := by omega
    unfold jsLowerChar
    rw [char_toNat_ofNat _ h1]
    have h2 : 65 ≤ c.toNat - 32 ∧ c.toNat - 32 ≤ 90 := by omega
    have h3 : ¬ (65 ≤ c.toNat ∧ c.toNat ≤ 90) := by omega
    rw [if_pos h2, if_neg h3]
    have h4 : c.toNat - 32 + 32 = c.toNat := by omega
    rw [h4]
    apply Char.ext
    apply UInt32.ext
    have h5 : c.toNat < 0xd800 := by omega
    exact char_toNat_ofNat _ h5
  · rw [if_neg h]

theorem upper_upper (c : Char) : jsUpperChar (jsUpperChar c) = jsUpperChar c := by
  by_cases h : 97 ≤ c.toNat ∧ c.toNat ≤ 122
  · have h1 : c.toNat - 32 < 0xd800 := by omega
    have he : jsUpperChar c = Char.ofNat (c.toNat - 32) := by
      unfold jsUpperChar; rw [if_pos h]
    rw [he]
    unfold jsUpperChar
    rw [char_toNat_ofNat _ h1]
    have h3 : ¬ (97 ≤ c.toNat - 32 ∧ c.toNat - 32 ≤ 122) := by omega
    rw [if_neg h3]
  · have he : jsUpperChar c = c := by unfold jsUpperChar; rw [if_neg h]
    rw [he, he]

/-! ## Facts about `trimJ`, `breakOn`, `splitJ`, `joinJ` -/

theorem head?_dropWhile {p : Char → Bool} {l : JStr} {c : Char}
    (h : (l.dropWhile p).head? = some c) : p c = false := by
  induction l with
  | nil => simp [List.dropWhile] at h
  | cons x xs ih =>
    rw [List.dropWhile_cons] at h
    by_cases hp : p x
    · rw [if_pos hp] at h; exact ih h
    · rw [if_neg hp] at h
      simp only [List.head?_cons, Option.some.injEq] at h
      subst h
      simpa using hp

theorem getLast?_dropWhile {p : Char → Bool} {l : JStr}
    (h : l.dropWhile p ≠ []) : (l.dropWhile p).getLast? = l.getLast? := by
  induction l with
  | nil => simp [List.dropWhile]
  | cons x xs ih =>
    rw [List.dropWhile_cons]
    by_cases hp : p x
    · rw [List.dropWhile_cons, if_pos hp] at h
      rw [if_pos hp, ih h]
      have hxs : xs ≠ [] := by
        intro hn; subst hn; simp [List.dropWhile] at h
      cases xs with
      | nil => simp at hxs
      | cons y ys => rw [List.getLast?_cons_cons]
    · rw [if_neg hp]

theorem trimJ_last_not_ws {s : JStr} {c : Char}
    (h : (trimJ s).getLast? = some c) : isWsChar c = false := by
  unfold trimJ at h
  rw [List.getLast?_reverse] at h
  exact head?_dropWhile h

theorem trimJ_head_not_ws {s : JStr} {c : Char}
    (h : (trimJ s).head? = some c) : isWsChar c = false := by
  unfold trimJ at h
  rw [List.head?_reverse] at h
  set d := s.dropWhile isWsChar with hd
  set e := d.reverse.dropWhile isWsChar with he
  have hene : e ≠ [] := by
    intro hn; rw [hn] at h; simp at h
  rw [getLast?_dropWhile hene, List.getLast?_reverse] at h
  exact head?_dropWhile h

theorem dropWhile_eq_self_of_head {p : Char → Bool} {l : JStr}
    (h : ∀ c, l.head? = some c → p c = false) : l.dropWhile p = l := by
  cases l with
  | nil => rfl
  | cons x xs =>
    rw [List.dropWhile_cons, if_neg]
    simp [h x rfl]

theorem trimJ_eq_self_of {s : JStr}
    (h1 : ∀ c, s.head? = some c → isWsChar c = false)
    (h2 : ∀ c, s.getLast? = some c → isWsChar c = false) : trimJ s = s := by
  unfold trimJ
  rw [dropWhile_eq_self_of_head h1]
  rw [dropWhile_eq_self_of_head (by simpa using h2)]
  exact List.reverse_reverse s

theorem trimJ_cons_ws {c : Char} {s : JStr} (h : isWsChar c = true) :
    trimJ (c :: s) = trimJ s := by
  unfold trimJ
  rw [List.dropWhile_cons, if_pos h]

theorem trimJ_nil : trimJ [] = [] := rfl

/-- `breakOn` finds nothing in a string without the pattern head anywhere
(single-character pattern version). -/
theorem breakOn_single_none {a : Char} {s : JStr} (h : a ∉ s) :
    breakOn [a] s = none := by
  induction s with
  | nil => rfl
  | cons c cs ih =>
    unfold breakOn
    have hac : ¬ ([a].isPrefixOf (c :: cs) = true) := by
      simp only [List.isPrefixOf, List.isPrefixOf_nil_left, Bool.and_true, beq_iff_eq]
      intro hn; subst hn; exact h (List.mem_cons_self _ _)
    rw [if_neg hac, ih (fun hm => h (List.mem_cons_of_mem _ hm))]
    rfl

theorem breakOn_single_append {a : Char} {x y : JStr} (h : a ∉ x) :
    breakOn [a] (x ++ a :: y) = some (x, y) := by
  induction x with
  | nil =>
    simp only [List.nil_append]
    unfold breakOn
    rw [if_pos (by simp [List.isPrefixOf])]
    simp
  | cons c cs ih =>
    unfold breakOn
    have hac : ¬ ([a].isPrefixOf (c :: (cs ++ a :: y)) = true) := by
      simp only [List.isPrefixOf, List.isPrefixOf_nil_left, Bool.and_true, beq_iff_eq]
      intro hn; subst hn; exact h (List.mem_cons_self _ _)
    simp only [List.cons_append]
    rw [if_neg hac, ih (fun hm => h (List.mem_cons_of_mem _ hm))]
    rfl

theorem breakOn_at_start {p s : JStr} (hp : p ≠ []) (h : p.isPrefixOf s) :
    breakOn p s = some ([], s.drop p.length) := by
  cases s with
  | nil =>
    rw [List.isPrefixOf_iff_prefix] at h
    have := List.prefix_nil.mp h
    exact absurd this hp
  | cons c cs =>
    unfold breakOn
    rw [if_pos h]

theorem splitGo_eq_of_le {p : JStr} (hp : p ≠ []) :
    ∀ (n m : Nat) (s : JStr), s.length ≤ n → s.length ≤ m →
      splitGo n p s = splitGo m p s := by
  intro n
  induction n with
  | zero =>
    intro m s hn _
    have hs : s = [] := List.eq_nil_of_length_eq_zero (Nat.le_zero.mp hn)
    subst hs
    cases m with
    | zero => rfl
    | succ m => rfl
  | succ n ih =>
    intro m s hn hm
    cases m with
    | zero =>
      have hs : s = [] := List.eq_nil_of_length_eq_zero (Nat.le_zero.mp hm)
      subst hs
      rfl
    | succ m =>
      show (match breakOn p s with
        | none => [s]
        | some (a, b) => a :: splitGo n p b) =
        (match breakOn p s with
        | none => [s]
        | some (a, b) => a :: splitGo m p b)
      cases hbr : breakOn p s with
      | none => rfl
      | some ab =>
        cases ab with
        | mk a b =>
          have hlt : b.length < s.length := breakOn_some_length hp hbr
          show a :: splitGo n p b = a :: splitGo m p b
          rw [ih m b (by omega) (by omega)]

theorem splitJ_none {p s : JStr} (hp : p ≠ []) (h : breakOn p s = none) :
    splitJ p s = [s] := by
  rw [splitJ, if_neg hp]
  cases hl : s.length with
  | zero => rfl
  | succ n =>
    show (match breakOn p s with
      | none => [s]
      | some (a, b) => a :: splitGo n p b) = [s]
    rw [h]

theorem splitJ_some {p s a b : JStr} (hp : p ≠ [])
    (h : breakOn p s = some (a, b)) : splitJ p s = a :: splitJ p b := by
  rw [splitJ, if_neg hp, splitJ, if_neg hp]
  have hne : s ≠ [] := by
    intro hs; subst hs; simp [breakOn] at h
  cases hl : s.length with
  | zero => exact absurd (List.eq_nil_of_length_eq_zero hl) hne
  | succ n =>
    show (match breakOn p s with
      | none => [s]
      | some (a, b) => a :: splitGo n p b) = a :: splitGo b.length p b
    rw [h]
    have hlt : b.length < s.length := breakOn_some_length hp h
    show a :: splitGo n p b = a :: splitGo b.length p b
    rw [splitGo_eq_of_le hp n b.length b (by omega) (Nat.le_refl _)]

theorem splitJ_single_of_not_mem {a : Char} {s : JStr} (h : a ∉ s) :
    splitJ [a] s = [s] :=
  splitJ_none (by simp) (breakOn_single_none h)

theorem splitJ_single_append {a : Char} {x y : JStr} (h : a ∉ x) :
    splitJ [a] (x ++ a :: y) = x :: splitJ [a] y :=
  splitJ_some (by simp) (breakOn_single_append h)

theorem splitJ_ne_nil {p s : JStr} : splitJ p s ≠ [] := by
  by_cases hp : p = []
  · rw [splitJ]; simp [hp]
  · cases hbr : breakOn p s with
    | none => rw [splitJ_none hp hbr]; simp
    | some ab =>
      cases ab with
      | mk a b => rw [splitJ_some hp hbr]; simp

/-- The first chunk of a single-character split starts with the string's first
character when that character is not the separator. -/
theorem splitJ_single_cons_head {a c : Char} {t : JStr} (h : c ≠ a) :
    ∃ w rest, splitJ [a] (c :: t) = (c :: w) :: rest := by
  have hac : ¬ ([a].isPrefixOf (c :: t) = true) := by
    simp only [List.isPrefixOf, List.isPrefixOf_nil_left, Bool.and_true, beq_iff_eq]
    intro hn; exact h hn.symm
  cases hbr : breakOn [a] t with
  | none =>
    have hb : breakOn [a] (c :: t) = none := by
      unfold breakOn; rw [if_neg hac, hbr]; rfl
    exact ⟨t, [], splitJ_none (by simp) hb⟩
  | some ab =>
    cases ab with
    | mk x y =>
      have hb : breakOn [a] (c :: t) = some (c :: x, y) := by
        unfold breakOn; rw [if_neg hac, hbr]; rfl
      exact ⟨x, splitJ [a] y, splitJ_some (by simp) hb⟩

theorem breakOn_map_upper {a : Char} (ha : ∀ c, (jsUpperChar c = a) ↔ (c = a))
    (s : JStr) :
    breakOn [a] (toUpperJ s) =
      (breakOn [a] s).map (fun ab => (toUpperJ ab.1, toUpperJ ab.2)) := by
  induction s with
  | nil => rfl
  | cons c cs ih =>
    show breakOn [a] (jsUpperChar c :: toUpperJ cs) =
      (breakOn [a] (c :: cs)).map (fun ab => (toUpperJ ab.1, toUpperJ ab.2))
    unfold breakOn
    by_cases hc : c = a
    · have hup : jsUpperChar c = a := (ha c).mpr hc
      rw [if_pos (by simp [List.isPrefixOf, hup]),
        if_pos (by simp [List.isPrefixOf, hc])]
      simp [toUpperJ]
    · have hup : ¬ (jsUpperChar c = a) := fun hn => hc ((ha c).mp hn)
      rw [if_neg (by simp [List.isPrefixOf]; intro hn; exact hup hn.symm),
        if_neg (by simp [List.isPrefixOf]; intro hn; exact hc hn.symm)]
      rw [ih]
      cases breakOn [a] cs with
      | none => rfl
      | some ab => cases ab; simp [toUpperJ]

theorem splitJ_map_upper_aux {a : Char} (ha : ∀ c, (jsUpperChar c = a) ↔ (c = a)) :
    ∀ (n : Nat) (s : JStr), s.length ≤ n →
      splitJ [a] (toUpperJ s) = (splitJ [a] s).map toUpperJ := by
  intro n
  induction n with
  | zero =>
    intro s hs
    have : s = [] := List.eq_nil_of_length_eq_zero (Nat.le_zero.mp hs)
    subst this
    have h0 : breakOn [a] ([] : JStr) = none := rfl
    rw [show toUpperJ [] = ([] : JStr) from rfl, splitJ_none (by simp) h0]
    rfl
  | succ n ih =>
    intro s hs
    cases hbr : breakOn [a] s with
    | none =>
      have hbu : breakOn [a] (toUpperJ s) = none := by
        rw [breakOn_map_upper ha, hbr]; rfl
      rw [splitJ_none (by simp) hbr, splitJ_none (by simp) hbu]
      rfl
    | some ab =>
      cases ab with
      | mk x y =>
        have hbu : breakOn [a] (toUpperJ s) = some (toUpperJ x, toUpperJ y) := by
          rw [breakOn_map_upper ha, hbr]; rfl
        rw [splitJ_some (by simp) hbr, splitJ_some (by simp) hbu]
        have hlen : y.length ≤ n := by
          have := breakOn_some_length (p := [a]) (by simp) hbr
          omega
        rw [ih y hlen]
        rfl

/-- Upper-casing a string commutes with splitting on a space. -/
theorem splitJ_map_upper (s : JStr) :
    splitJ [' '] (toUpperJ s) = (splitJ [' '] s).map toUpperJ :=
  splitJ_map_upper_aux upper_eq_space_iff s.length s (Nat.le_refl _)

/-- `capitalizeFirstLetter` ignores prior upper-casing. -/
theorem capitalize_toUpper (w : JStr) :
    capitalizeFirstLetter (toUpperJ w) = capitalizeFirstLetter w := by
  cases w with
  | nil => rfl
  | cons c cs =>
    show jsUpperChar (jsUpperChar c) :: (cs.map jsUpperChar).map jsLowerChar =
      jsUpperChar c :: cs.map jsLowerChar
    rw [upper_upper, List.map_map]
    congr 1
    apply List.map_congr_left
    intro x _
    exact lower_upper x

theorem joinJ_cons_ne_nil {sep : JStr} {x : JStr} {xs : List JStr}
    (h : x ≠ []) : joinJ sep (x :: xs) ≠ [] := by
  cases xs with
  | nil => simpa [joinJ, List.intercalate, List.intersperse]
  | cons y ys =>
    simp only [joinJ, List.intercalate, List.intersperse]
    simp [h]

/-! ## Domain data: phones, banks, contact info (`contact_info.ts`)

`PhoneNumber`/`TZPhoneNumber` and `Bank` come from external packages; the
embedding keeps only the fields this library reads (`label`, `shortName`) and
abstracts the lookup functions into `ParseCtx` below. -/

structure PhoneNumber where
  label : JStr
deriving DecidableEq, Repr

structure Bank where
  shortName : JStr
deriving DecidableEq, Repr

/-- `MobileContactInfo` from `contact_info.ts` (fields read by the narration
codec and payout derivation). -/
structure MobileContactInfo where
  name : JStr
  phoneNumber : PhoneNumber
deriving DecidableEq, Repr

/-- `BankContactInfo` from `contact_info.ts`. -/
structure BankContactInfo where
  accName : JStr
  bank : Bank
  accNo : JStr
deriving DecidableEq, Repr

/-- The `ContactInfo` union (`MobileContactInfo | BankContactInfo`). -/
inductive ContactInfo where
  | mobile (m : MobileContactInfo)
  | bank (b : BankContactInfo)
deriving DecidableEq, Repr

/-- External collaborators used by the library, as total functions:
`TZPhoneNumber.from` / `PhoneNumber.from` return `undefined` on failure
(`Option`), the bank registry lookups likewise, and `JSON.parse` throws on
malformed input (`Except`); JSON objects are modelled as flat string-to-string
maps, which covers every key the code reads. -/
structure ParseCtx where
  tzPhoneFrom : JStr → Option PhoneNumber
  phoneFrom : JStr → Option PhoneNumber
  bankFromSWIFTCode : JStr → Option Bank
  bankFromBankName : JStr → Option Bank
  jsonParse : JStr → Except Unit (List (JStr × JStr))

/-! ## Narration codec (`narration.ts`) -/

/-- Prefix for Ecobank mobile transfer narrations. -/
def ECOBANK_PREFIX : JStr := "MOBILE TRANSFER ".data

/-- Current format prefix for bank payout narrations. -/
def BANK_NARR_PREFIX : JStr := "PAYOUT TO BANK".data

/-- Legacy format prefix for bank payout narrations. -/
def LEGACY_BANK_NARR_PREFIX : JStr := "TO_BANK".data

/-- Current format prefix for mobile money payout narrations. -/
def MOBILE_NARR_PREFIX : JStr := "PAYOUT TO MOBILE".data

/-- Legacy format prefix for mobile money payout narrations. -/
def LEGACY_MOBILE_NARR_PREFIX : JStr := "TO_MOMO".data

namespace Narration

/-- The shared preamble of both parsers: trim the narration and strip the
Ecobank prefix when present. -/
def normNarr (text : JStr) : JStr :=
  let narr := trimJ text
  if startsWithJ ECOBANK_PREFIX narr then narr.drop ECOBANK_PREFIX.length
  else narr

/-- `Narration.generateMobilePayoutNarration`:
`"PAYOUT TO MOBILE {phone.label.trim()} {name.trim()}"` upper-cased. -/
def generateMobilePayoutNarration (data : MobileContactInfo) : JStr :=
  toUpperJ (trimJ MOBILE_NARR_PREFIX ++ [' '] ++ trimJ data.phoneNumber.label
    ++ [' '] ++ trimJ data.name)

/-- `Narration.generateBankPayoutNarration`:
`"PAYOUT TO BANK {bank.shortName.trim()} {accNo.trim()} {accName.trim()}"`
upper-cased. -/
def generateBankPayoutNarration (data : BankContactInfo) : JStr :=
  toUpperJ (trimJ BANK_NARR_PREFIX ++ [' '] ++ trimJ data.bank.shortName
    ++ [' '] ++ trimJ data.accNo ++ [' '] ++ trimJ data.accName)

/-- Legacy-format bank branch of `getBankContactDetails`:
`narr.split("=>")[1].trim()` is `JSON.parse`d, the keys `account_number`,
`account_name`, `swift_code` are read, and the guard `accNo && accName && bank`
decides success. Indexing past the end of the split (no `"=>"` separator) and
a `JSON.parse` failure both throw, hence `Except`. -/
def getBankLegacy (ctx : ParseCtx) (narr : JStr) :
    Except Unit (Option BankContactInfo) :=
  match (splitJ "=>".data narr).get? 1 with
  | none => Except.error ()
  | some second =>
    match ctx.jsonParse (trimJ second) with
    | Except.error e => Except.error e
    | Except.ok map =>
      let accNo := map.lookup "account_number".data
      let accName := map.lookup "account_name".data
      let code := map.lookup "swift_code".data
      let bank := code.bind ctx.bankFromSWIFTCode
      match accNo, accName, bank with
      | some a, some n, some b =>
        if a ≠ [] ∧ n ≠ [] then Except.ok (some ⟨n, b, a⟩)
        else Except.ok none
      | _, _, _ => Except.ok none

/-- Current-format bank branch of `getBankContactDetails`: strip the prefix
(first occurrence, as `String.prototype.replace` does), trim, tokenize on
spaces; token 0 is the bank name, token 1 the account number, the rest joined
and title-cased form the account name. -/
def getBankCurrent (ctx : ParseCtx) (narr : JStr) : Option BankContactInfo :=
  let data := splitJ [' '] (trimJ (replaceFirstJ BANK_NARR_PREFIX [] narr))
  let bank := ctx.bankFromBankName (data.headD [])
  let accNo := data.get? 1
  let accName := joinJ [' '] ((data.drop 2).map capitalizeFirstLetter)
  match accNo, bank with
  | some a, some b =>
    if accName ≠ [] ∧ a ≠ [] then some ⟨accName, b, a⟩ else none
  | _, _ => none

/-- `getBankContactDetails` before its `catch`: legacy branch first (only when
its prefix matches), then — if the legacy branch did not return — the
current-format branch, then `undefined`. -/
def getBankContactDetailsE (ctx : ParseCtx) (text : JStr) :
    Except Unit (Option BankContactInfo) :=
  let narr := normNarr text
  if startsWithJ LEGACY_BANK_NARR_PREFIX narr then
    match getBankLegacy ctx narr with
    | Except.error e => Except.error e
    | Except.ok (some r) => Except.ok (some r)
    | Except.ok none =>
      Except.ok (if startsWithJ BANK_NARR_PREFIX narr
        then getBankCurrent ctx narr else none)
  else
    Except.ok (if startsWithJ BANK_NARR_PREFIX narr
      then getBankCurrent ctx narr else none)

/-- `getBankContactDetails`: the whole body is wrapped in
`try { ... } catch (_) { return undefined; }`. -/
def getBankContactDetails (ctx : ParseCtx) (text : JStr) :
    Option BankContactInfo :=
  match getBankContactDetailsE ctx text with
  | Except.ok r => r
  | Except.error _ => none

/-- Legacy-format mobile branch of `getMobileContactDetails`: reads
`phone_number` and `username` from the embedded JSON; a missing `username`
becomes the empty string, which is then whitespace-normalized and title-cased
word by word. -/
def getMobileLegacy (ctx : ParseCtx) (narr : JStr) :
    Except Unit (Option MobileContactInfo) :=
  match (splitJ "=>".data narr).get? 1 with
  | none => Except.error ()
  | some second =>
    match ctx.jsonParse (trimJ second) with
    | Except.error e => Except.error e
    | Except.ok map =>
      let phoneNumber := (map.lookup "phone_number".data).bind ctx.tzPhoneFrom
      let username0 := (map.lookup "username".data).getD []
      let names := (splitJ [' '] username0).filter (fun n => decide (trimJ n ≠ []))
      let username := joinJ [' '] (names.map capitalizeFirstLetter)
      match phoneNumber with
      | some ph =>
        if username ≠ [] then Except.ok (some ⟨username, ph⟩)
        else Except.ok none
      | none => Except.ok none

/-- Current-format mobile branch: token 0 is the phone number, the remaining
tokens title-cased and joined form the name. -/
def getMobileCurrent (ctx : ParseCtx) (narr : JStr) : Option MobileContactInfo :=
  let data := splitJ [' '] (trimJ (replaceFirstJ MOBILE_NARR_PREFIX [] narr))
  let phone := ctx.tzPhoneFrom (data.headD [])
  let username := joinJ [' '] ((data.drop 1).map capitalizeFirstLetter)
  match phone with
  | some ph => if username ≠ [] then some ⟨username, ph⟩ else none
  | none => none

/-- `getMobileContactDetails` before its `catch`. -/
def getMobileContactDetailsE (ctx : ParseCtx) (text : JStr) :
    Except Unit (Option MobileContactInfo) :=
  let narr := normNarr text
  if startsWithJ LEGACY_MOBILE_NARR_PREFIX narr then
    match getMobileLegacy ctx narr with
    | Except.error e => Except.error e
    | Except.ok (some r) => Except.ok (some r)
    | Except.ok none =>
      Except.ok (if startsWithJ MOBILE_NARR_PREFIX narr
        then getMobileCurrent ctx narr else none)
  else
    Except.ok (if startsWithJ MOBILE_NARR_PREFIX narr
      then getMobileCurrent ctx narr else none)

/-- `getMobileContactDetails` with its `catch` applied. -/
def getMobileContactDetails (ctx : ParseCtx) (text : JStr) :
    Option MobileContactInfo :=
  match getMobileContactDetailsE ctx text with
  | Except.ok r => r
  | Except.error _ => none

/-- `getContactDetails`: bank parse first, then mobile. -/
def getContactDetails (ctx : ParseCtx) (text : JStr) : Option ContactInfo :=
  match getBankContactDetails ctx text with
  | some r1 => some (ContactInfo.bank r1)
  | none => (getMobileContactDetails ctx text).map ContactInfo.mobile

end Narration

/-- Title-casing as stated by the specification: split on spaces, upper-case
each word's first letter, lower-case the rest, re-join. This is the spec-side
reading of "title-cased per word" used to state the round-trip claims. -/
def titleCaseJ (s : JStr) : JStr :=
  joinJ [' '] ((splitJ [' '] s).map capitalizeFirstLetter)

/-! ## Payout model (`src/unnamed/part_004`, `schemas.ts`, `status.ts`) -/

/-- The fields of `PayoutData` that the embedded getters read. Statuses are
kept as strings, as in the Zod schemas (string enums). -/
structure PayoutData where
  id : JStr
  profileId : JStr
  payeeName : JStr
  channel : JStr
  msisdn : JStr
  description : JStr
  statusMessage : JStr
  status : JStr
  approvalStatus : JStr
deriving DecidableEq, Repr

/-- The transaction-status enum accepted by `payoutStatusSchema`. -/
def payoutTransactionStatuses : List JStr :=
  ["CREATED".data, "PAID".data, "FAILED".data, "REJECTED".data,
   "PENDING".data, "QUEUED".data, "REVERSED".data]

/-- The approval-status enum accepted by `approvalPayoutStatusSchema`. -/
def payoutApprovalStatuses : List JStr :=
  ["Approved".data, "Pending".data, "Rejected".data]

/-- A payout record accepted by `PayoutSchemas.payoutData` (the enum-valued
fields lie in their enums; the plain string fields are unconstrained). -/
def validPayoutData (d : PayoutData) : Prop :=
  d.status ∈ payoutTransactionStatuses ∧
  d.approvalStatus ∈ payoutApprovalStatuses

namespace Payout

/-- The derived `status` getter of the `Payout` class. -/
def statusOf (d : PayoutData) : JStr :=
  if d.approvalStatus = "Rejected".data then "REJECTED".data
  else if d.approvalStatus = "Approved".data then
    (if d.status = "FAILED".data then "FAILED".data else "PAID".data)
  else if d.approvalStatus = "Pending".data then "PENDING".data
  else d.status

/-- `createPayoutChannelCode.bank()`. -/
def bankChannelCode : JStr := "TZ-BANK-B2C".data

/-- `createPayoutChannelCode.verto()`. -/
def vertoChannelCode : JStr := "TZ-VERTO-B2C".data

/-- The derived `contactInfo` getter of the `Payout` class: the mobile branch
runs first (`PhoneNumber.from(msisdn)`), then — for the two bank channel
codes — the bank branch splits the msisdn on `":"`, resolves the SWIFT code
and, when a bank is found, overwrites the result. In JavaScript `text[1]` is
`undefined` when the msisdn has no colon and is then stored unchecked in
`BankContactInfo`; the model represents that corner as the empty string (all
theorems about this function assume the colon form). -/
def contactInfoOf (ctx : ParseCtx) (d : PayoutData) : Option ContactInfo :=
  let mobileResult : Option ContactInfo :=
    (ctx.phoneFrom d.msisdn).map (fun ph => ContactInfo.mobile ⟨d.payeeName, ph⟩)
  let isBankPayout := d.channel = bankChannelCode ∨ d.channel = vertoChannelCode
  if isBankPayout then
    let text := splitJ [':'] (trimJ d.msisdn)
    let swiftcode := text.headD []
    let accNo := text.get? 1
    match ctx.bankFromSWIFTCode swiftcode with
    | some bank => some (ContactInfo.bank ⟨d.payeeName, bank, accNo.getD []⟩)
    | none => mobileResult
  else mobileResult

end Payout

/-- `ProcessedPayout.transactionStatus` (`processed_payout.ts`): the same
derivation as `Payout.status`, re-implemented on the source record. -/
def ProcessedPayout.transactionStatusOf (d : PayoutData) : JStr :=
  if d.approvalStatus = "Rejected".data then "REJECTED".data
  else if d.approvalStatus = "Approved".data then
    (if d.status = "FAILED".data then "FAILED".data else "PAID".data)
  else if d.approvalStatus = "Pending".data then "PENDING".data
  else d.status

/-- The derivation table of spec section 4.3, written from the spec's words:
Rejected dominates; Approved resolves by transaction status; Pending maps to
PENDING; anything else passes the stored transaction status through. -/
def specStatusTable (approvalStatus transactionStatus : JStr) : JStr :=
  if approvalStatus = "Rejected".data then "REJECTED".data
  else if approvalStatus = "Approved".data then
    (if transactionStatus = "FAILED".data then "FAILED".data else "PAID".data)
  else if approvalStatus = "Pending".data then "PENDING".data
  else transactionStatus

/-! ## Permission catalog and `User` (`permission.ts`, `user.ts`) -/

/-- Every leaf of the static `Permissions` catalog, in declaration order. -/
def PermissionsCatalog : List JStr :=
  ["profile.getCurrent".data, "profile.update".data,
   "contact.findById".data, "contact.findAll".data, "contact.create".data,
   "contact.update".data, "contact.delete".data,
   "payment.findById".data, "payment.findAll".data, "payment.create".data,
   "payout.findById".data, "payout.findAll".data, "payout.create".data,
   "payout.approve".data,
   "transfer.findById".data, "transfer.findAll".data, "transfer.create".data,
   "transfer.approve".data,
   "wallet.getBalance".data, "wallet.getStatement".data]

/-- The plain object produced by `Profile.toObject` / consumed by
`Profile.from`. `Option (Option _)` distinguishes a missing field
(JS `undefined`, outer `none`) from an explicit `null` (`some none`). -/
structure ProfileObj where
  id : JStr
  firstName : Option (Option JStr)
  lastName : Option (Option JStr)
  displayName : JStr
  phone : Option (Option JStr)
  accountNo : JStr
  email : Option (Option JStr)
deriving DecidableEq, Repr

/-- The `Profile` class (`profile.ts`): same fields, with the phone parsed
into a `PhoneNumber` object. -/
structure Profile where
  id : JStr
  firstName : Option (Option JStr)
  lastName : Option (Option JStr)
  displayName : JStr
  phone : Option (Option PhoneNumber)
  accountNo : JStr
  email : Option (Option JStr)
deriving DecidableEq, Repr

namespace Profile

/-- `Profile.prototype.toObject`: the phone becomes its label, preserving
`undefined` vs `null`. -/
def toObject (p : Profile) : ProfileObj :=
  { id := p.id
    firstName := p.firstName
    lastName := p.lastName
    displayName := p.displayName
    phone :=
      match p.phone with
      | none => none
      | some none => some none
      | some (some ph) => some (some ph.label)
    accountNo := p.accountNo
    email := p.email }

/-- `Profile.create`: a present, non-null phone string gets a `"+"` prepended
when missing and must parse via `PhoneNumber.from`, else construction fails;
`null`/`undefined` phones are preserved. -/
def create (ctx : ParseCtx) (data : ProfileObj) : Option Profile :=
  match data.phone with
  | some (some s) =>
    let phoneString := if startsWithJ ['+'] s then s else '+' :: s
    (ctx.phoneFrom phoneString).map (fun ph =>
      { id := data.id, firstName := data.firstName, lastName := data.lastName,
        displayName := data.displayName, phone := some (some ph),
        accountNo := data.accountNo, email := data.email })
  | some none =>
    some { id := data.id, firstName := data.firstName,
           lastName := data.lastName, displayName := data.displayName,
           phone := some none, accountNo := data.accountNo, email := data.email }
  | none =>
    some { id := data.id, firstName := data.firstName,
           lastName := data.lastName, displayName := data.displayName,
           phone := none, accountNo := data.accountNo, email := data.email }

/-- `Profile.from` on a plain object (`from` is a Lean keyword, hence
`fromObj`): requires truthy `id`, `accountNo` and `displayName`, then defers
to `create`. -/
def fromObj (ctx : ParseCtx) (data : ProfileObj) : Option Profile :=
  if data.id ≠ [] ∧ data.accountNo ≠ [] ∧ data.displayName ≠ [] then
    create ctx data
  else none

end Profile

/-- The string-keyed properties every plain JavaScript object inherits from
`Object.prototype`; indexing a plain object with one of these names when it is
not an own property returns the inherited function (or, for `__proto__`, the
prototype object) rather than `undefined`. -/
def objectPrototypeKeys : List JStr :=
  ["constructor".data, "hasOwnProperty".data, "isPrototypeOf".data,
   "propertyIsEnumerable".data, "toLocaleString".data, "toString".data,
   "valueOf".data, "__defineGetter__".data, "__defineSetter__".data,
   "__lookupGetter__".data, "__lookupSetter__".data, "__proto__".data]

/-- An observable value of the JavaScript expression
`permissionsMap[permission] ?? false`: either an actual boolean (stored in the
map, or the `false` supplied by `??`), or a member inherited from
`Object.prototype` — a function or object, hence truthy and not filtered out
by `??`. -/
inductive JsCanValue where
  | jsBool (b : Bool)
  | protoMember (k : JStr)
deriving DecidableEq, Repr

/-- The `User` class: profile, token, identity fields and the permissions map
computed once in the constructor. -/
structure User where
  name : JStr
  identity : JStr
  profile : Profile
  token : JStr
  resetPassword : Bool
  permissionsMap : List (JStr × Bool)
deriving DecidableEq, Repr

namespace User

/-- The private `User` constructor: for every permission of the static
catalog, record whether the access list contains it. -/
def construct (profile : Profile) (token : JStr) (access : List JStr)
    (resetPassword : Bool) (name identity : JStr) : User :=
  { name := name
    identity := identity
    profile := profile
    token := token
    resetPassword := resetPassword
    permissionsMap := PermissionsCatalog.map (fun perm => (perm, access.contains perm)) }

/-- `User.prototype.can`: `this.permissionsMap[permission] ?? false`.
`permissionsMap` is a plain object, so property lookup falls through to the
`Object.prototype` chain: a catalog key (own property) yields its stored
boolean, a name of an `Object.prototype` member (e.g. `"toString"`) yields the
inherited member — which is not `undefined`, so `?? false` passes it
through — and any other string yields `undefined`, which `?? false` turns into
the boolean `false`. -/
def can (u : User) (permission : JStr) : JsCanValue :=
  match u.permissionsMap.lookup permission with
  | some b => JsCanValue.jsBool b
  | none =>
    if permission ∈ objectPrototypeKeys then JsCanValue.protoMember permission
    else JsCanValue.jsBool false

/-- The JSON envelope written by `User.prototype.toJSON` and read by
`User.fromJSON`; `JSON.stringify`/`JSON.parse` on this flat record of strings,
booleans and string arrays is value-faithful, so the string stage is modelled
as the envelope itself. `permissions` and `access` are optional because
`User.from` accepts either key. -/
structure UserJSON where
  profile : ProfileObj
  token : JStr
  resetPassword : Bool
  name : JStr
  identity : JStr
  permissions : Option (List JStr)
  access : Option (List JStr)
deriving DecidableEq, Repr

/-- `User.prototype.toJSON`: serializes the profile as a plain object and the
permissions map as the list of keys mapped to `true`; it writes no `access`
key. -/
def toJSON (u : User) : UserJSON :=
  { profile := u.profile.toObject
    token := u.token
    resetPassword := u.resetPassword
    name := u.name
    identity := u.identity
    permissions := some ((u.permissionsMap.filter (fun kv => kv.2)).map (fun kv => kv.1))
    access := none }

/-- `User.from` applied to a parsed envelope whose `profile` is a plain
object (the shape produced by `toJSON` after `JSON.parse`): reconstruct the
profile via `Profile.from`, require truthy `token`/`name`/`identity` and at
least one of the `permissions`/`access` arrays, then construct with
`access || permissions`. -/
def fromEnvelope (ctx : ParseCtx) (data : UserJSON) : Option User :=
  match Profile.fromObj ctx data.profile with
  | none => none
  | some profile =>
    if data.token ≠ [] ∧ data.name ≠ [] ∧ data.identity ≠ [] ∧
        (data.permissions.isSome ∨ data.access.isSome) then
      let access := data.access.getD (data.permissions.getD [])
      some (construct profile data.token access data.resetPassword
        data.name data.identity)
    else none

/-- `User.from` applied to the in-memory argument object built by
`ServerTokenHandler.constructUser`: the profile is already a `Profile`
instance, the access array and the `resetPassword` boolean are well-typed, so
only the truthiness checks on `token`/`name`/`identity` remain. -/
def fromParts (profile : Profile) (token : JStr) (access : List JStr)
    (resetPassword : Bool) (name identity : JStr) : Option User :=
  if token ≠ [] ∧ name ≠ [] ∧ identity ≠ [] then
    some (construct profile token access resetPassword name identity)
  else none

end User

/-! ## Auth facade and server token handler (`manager.ts`,
`server_token_handler.ts`) -/

/-- An `AfloatAuth` facade instance. The `id` models JavaScript object
identity: every `new AfloatAuth(...)` allocation gets a fresh id. -/
structure AfloatAuth where
  id : Nat
  storeUser : Option User
  token : JStr
deriving DecidableEq, Repr

/-- `checkPermission`: `this.currentUser?.can(perm) ?? false`. With no user
the optional chain yields `undefined` and `??` supplies the boolean `false`;
with a user, `can`'s value is returned unchanged (`can` never yields
`undefined`). -/
def AfloatAuth.checkPermission (a : AfloatAuth) (perm : JStr) : JsCanValue :=
  match a.storeUser with
  | some u => u.can perm
  | none => JsCanValue.jsBool false

/-- The identity endpoint's 200 response as the client actually consumes it:
`handleResponse` is a bare `result.body as T` cast with no response
validation, so besides the contract's `name` and `identity` the payload may
carry extra keys. The one that matters downstream is a stray boolean
`resetPassword` (`none` models a payload without such a key; a stray value of
any non-boolean type would make `User.from` reject the assembled argument, so
only booleans reach a constructed user). -/
structure IdentityData where
  name : JStr
  identity : JStr
  resetPassword : Option Bool
deriving DecidableEq, Repr

/-- The outcomes of the three concurrent fetches issued by `constructUser`
(`Promise.all` over the access list, the profile and the identity), each
already passed through `handleResponse`: either the typed payload or a thrown
error's message. -/
structure ServerEnv where
  access : Except String (List JStr)
  profile : Except String ProfileObj
  identity : Except String IdentityData

/-- The `try` block of `ServerTokenHandler.constructUser`: await the three
fetches (any rejection aborts the `Promise.all`), build the profile and then
the user from `{token, profile, access, resetPassword: false, ...identityData}`.
The spread comes after the literal, so when the (unvalidated) identity payload
itself carries a `resetPassword` key that value overrides the hard-coded
`false`. -/
def ServerTokenHandler.constructUserTry (ctx : ParseCtx) (env : ServerEnv)
    (token : JStr) : Except String User :=
  match env.access with
  | Except.error m => Except.error m
  | Except.ok accessList =>
    match env.profile with
    | Except.error m => Except.error m
    | Except.ok profileData =>
      match env.identity with
      | Except.error m => Except.error m
      | Except.ok identityData =>
        match Profile.fromObj ctx profileData with
        | none => Except.error "Failed to create profile from response data"
        | some profile =>
          match User.fromParts profile token accessList
              (identityData.resetPassword.getD false)
              identityData.name identityData.identity with
          | none => Except.error "Failed to construct user"
          | some user => Except.ok user

/-- `ServerTokenHandler.constructUser`: fails up front on an empty token;
otherwise runs the `try` block above, wrapping any of its failures as
`"Error constructing user: ..."`. -/
def ServerTokenHandler.constructUser (ctx : ParseCtx) (env : ServerEnv)
    (token : JStr) : Except String User :=
  if token = [] then Except.error "Token is required to construct user"
  else
    match ServerTokenHandler.constructUserTry ctx env token with
    | Except.ok u => Except.ok u
    | Except.error m => Except.error ("Error constructing user: " ++ m)

/-- The static state of `AfloatAuth`: the fresh-allocation counter (object
identity), the `AuthContext.current` slot and the cached client `_instance`. -/
structure AuthStatics where
  nextId : Nat
  current : Option AfloatAuth
  clientInstance : Option AfloatAuth
deriving Repr

/-- `AfloatAuth.initializeServer`: rejects an empty token before touching the
fetch environment, otherwise builds a brand-new instance (fresh id, in-memory
store holding the constructed user), updates `AuthContext.current`, and wraps
any construction failure as `"Failed to initialize server auth: ..."`. -/
def AfloatAuth.initializeServer (ctx : ParseCtx) (statics : AuthStatics)
    (token : JStr) (env : ServerEnv) : Except String (AfloatAuth × AuthStatics) :=
  if token = [] then Except.error "Token is required for server initialization"
  else
    match ServerTokenHandler.constructUser ctx env token with
    | Except.ok user =>
      let auth : AfloatAuth :=
        { id := statics.nextId, storeUser := some user, token := token }
      Except.ok (auth,
        { nextId := statics.nextId + 1
          current := some auth
          clientInstance := statics.clientInstance })
    | Except.error m =>
      Except.error ("Failed to initialize server auth: " ++ m)

/-! ## Helper lemmas about the permissions map -/

theorem lookup_map_apply {β : Type} (f : JStr → β) (l : List JStr) (p : JStr) :
    (l.map (fun c => (c, f c))).lookup p = if p ∈ l then some (f p) else none := by
  induction l with
  | nil => simp
  | cons c cs ih =>
    by_cases hpc : p = c
    · subst hpc
      simp [List.lookup]
    · have hbeq : (p == c) = false := by simp [hpc]
      simp [List.lookup, hbeq, ih, List.mem_cons, hpc]

/-- `can` on a freshly constructed user: a catalog key yields the boolean
recording its membership in the access list; any other string falls through to
the `Object.prototype` chain — an inherited member for a prototype key, the
boolean `false` otherwise. -/
theorem can_construct (profile : Profile) (token : JStr) (access : List JStr)
    (resetPassword : Bool) (name identity p : JStr) :
    (User.construct profile token access resetPassword name identity).can p =
      (if p ∈ PermissionsCatalog then JsCanValue.jsBool (access.contains p)
       else if p ∈ objectPrototypeKeys then JsCanValue.protoMember p
       else JsCanValue.jsBool false) := by
  unfold User.can User.construct
  simp only
  rw [lookup_map_apply]
  by_cases hp : p ∈ PermissionsCatalog
  · rw [if_pos hp, if_pos hp]
  · rw [if_neg hp, if_neg hp]

theorem mem_true_keys (f : JStr → Bool) (l : List JStr) (p : JStr) :
    (p ∈ ((l.map (fun c => (c, f c))).filter (fun kv => kv.2)).map
        (fun kv => kv.1)) ↔ (p ∈ l ∧ f p = true) := by
  simp only [List.mem_map, List.mem_filter]
  constructor
  · rintro ⟨kv, ⟨⟨c, hc, rfl⟩, hf⟩, rfl⟩
    exact ⟨hc, hf⟩
  · rintro ⟨hp, hf⟩
    exact ⟨(p, f p), ⟨⟨p, hp, rfl⟩, hf⟩, rfl⟩

/-! ## Sample data used by witnesses and counterexamples -/

/-- A collaborator context where every lookup fails; used where the claim at
hand does not depend on the collaborators. -/
def sampleCtx : ParseCtx :=
  { tzPhoneFrom := fun _ => none
    phoneFrom := fun _ => none
    bankFromSWIFTCode := fun _ => none
    bankFromBankName := fun _ => none
    jsonParse := fun _ => Except.error () }

def sampleProfile : Profile :=
  { id := "p1".data, firstName := none, lastName := none,
    displayName := "Disp".data, phone := none,
    accountNo := "123".data, email := none }

def sampleProfileObj : ProfileObj :=
  { id := "p1".data, firstName := none, lastName := none,
    displayName := "Disp".data, phone := none,
    accountNo := "123".data, email := none }

def sampleEnv : ServerEnv :=
  { access := Except.ok ["payout.create".data]
    profile := Except.ok sampleProfileObj
    identity := Except.ok ⟨"Name".data, "a@b.com".data, none⟩ }

/-- The user `constructUser` builds from `sampleEnv`. -/
def sampleServerUser : User :=
  User.construct sampleProfile "t".data ["payout.create".data] false
    "Name".data "a@b.com".data

def samplePayoutData : PayoutData :=
  { id := "po_1".data, profileId := "pr_1".data, payeeName := "Jane Smith".data,
    channel := "TZ-BANK-B2C".data, msisdn := "CORUTZTZ:12345".data,
    description := "rent".data, statusMessage := "ok".data,
    status := "CREATED".data, approvalStatus := "Pending".data }

/-! ## C1 -/

/-- C1: for every payout record accepted by the schema, the derived `status`
getter returns one of REJECTED, FAILED, PAID, PENDING, CREATED, agrees with
the derivation table of spec section 4.3 (Rejected dominates; Approved
resolves FAILED vs PAID by transaction status; Pending maps to PENDING; any
other approval status passes the stored transaction status through), and the
re-implementation in `ProcessedPayout.transactionStatus` agrees with it. -/
theorem payoutStatus_matches_derivation_table (d : PayoutData)
    (h : validPayoutData d) :
    Payout.statusOf d ∈ ["REJECTED".data, "FAILED".data, "PAID".data,
      "PENDING".data, "CREATED".data] ∧
    Payout.statusOf d = specStatusTable d.approvalStatus d.status ∧
    ProcessedPayout.transactionStatusOf d = Payout.statusOf d := by
  refine ⟨?_, rfl, rfl⟩
  obtain ⟨hs, ha⟩ := h
  simp only [payoutApprovalStatuses, List.mem_cons, List.not_mem_nil, or_false] at ha
  rcases ha with ha | ha | ha
  · unfold Payout.statusOf
    rw [if_neg (by rw [ha]; decide), if_pos ha]
    by_cases hF : d.status = "FAILED".data
    · rw [if_pos hF]; decide
    · rw [if_neg hF]; decide
  · unfold Payout.statusOf
    rw [if_neg (by rw [ha]; decide), if_neg (by rw [ha]; decide), if_pos ha]
    decide
  · unfold Payout.statusOf
    rw [if_pos ha]
    decide

/-- C1 witness: the theorem applied to a concrete schema-valid record. -/
theorem payoutStatus_matches_derivation_table_witness :
    validPayoutData samplePayoutData ∧
    (Payout.statusOf samplePayoutData ∈ ["REJECTED".data, "FAILED".data,
      "PAID".data, "PENDING".data, "CREATED".data] ∧
    Payout.statusOf samplePayoutData =
      specStatusTable samplePayoutData.approvalStatus samplePayoutData.status ∧
    ProcessedPayout.transactionStatusOf samplePayoutData =
      Payout.statusOf samplePayoutData) :=
  ⟨⟨by decide, by decide⟩,
   payoutStatus_matches_derivation_table samplePayoutData ⟨by decide, by decide⟩⟩

/-! ## C5 -/

/-- C5 counterexample: the claim fails in both directions. A user constructed
with the access list `["foo.bar"]` — a permission string outside the static
catalog — does NOT satisfy `can(p) = true ↔ p ∈ access`: `"foo.bar"` is in the
access list but `can("foo.bar")` is the boolean `false`, because the
permissions map only has catalog keys. And `can` does not return `false` for
every string outside the access list either: `can("toString")` is the member
inherited from `Object.prototype` — a truthy function, not `false`. -/
theorem user_can_iff_access_cex :
    (¬ (((User.construct sampleProfile "tok".data ["foo.bar".data] false
        "Name".data "a@b.com".data).can "foo.bar".data) = JsCanValue.jsBool true
      ↔ "foo.bar".data ∈ ["foo.bar".data])) ∧
    (User.construct sampleProfile "tok".data ["foo.bar".data] false
        "Name".data "a@b.com".data).can "toString".data =
      JsCanValue.protoMember "toString".data := by
  refine ⟨by decide, by decide⟩

/-- C5 amended: `can(p)` is the boolean `true` iff `p` is in the access list
AND in the static permission catalog. For a string outside the catalog the
result depends on the `Object.prototype` chain: if it is not the name of a
prototype member, `can` returns the boolean `false` — even when the string is
in the access list — while for a prototype member name such as `"toString"`,
`can` returns the inherited (truthy, non-boolean) member rather than
`false`. -/
theorem user_can_iff_catalog_and_access (profile : Profile) (token : JStr)
    (access : List JStr) (resetPassword : Bool) (name identity p : JStr) :
    ((User.construct profile token access resetPassword name identity).can p =
        JsCanValue.jsBool true ↔ (p ∈ PermissionsCatalog ∧ p ∈ access)) ∧
    (p ∉ PermissionsCatalog → p ∉ objectPrototypeKeys →
      (User.construct profile token access resetPassword name identity).can p =
        JsCanValue.jsBool false) ∧
    (p ∉ PermissionsCatalog → p ∈ objectPrototypeKeys →
      (User.construct profile token access resetPassword name identity).can p =
        JsCanValue.protoMember p) := by
  refine ⟨?_, ?_, ?_⟩
  · rw [can_construct]
    by_cases hp : p ∈ PermissionsCatalog
    · rw [if_pos hp]
      simp [hp, List.contains, List.elem_iff]
    · rw [if_neg hp]
      by_cases hq : p ∈ objectPrototypeKeys
      · rw [if_pos hq]
        simp [hp]
      · rw [if_neg hq]
        simp [hp]
  · intro h1 h2
    rw [can_construct, if_neg h1, if_neg h2]
  · intro h1 h2
    rw [can_construct, if_neg h1, if_pos h2]

/-- C5 witness: the amended theorem's three parts at concrete permission
strings — a granted catalog key, an unknown string, and the prototype member
name `"toString"`. -/
theorem user_can_iff_catalog_and_access_witness :
    ((User.construct sampleProfile "tok".data ["payout.create".data] false
        "Name".data "a@b.com".data).can "payout.create".data =
        JsCanValue.jsBool true ↔
      ("payout.create".data ∈ PermissionsCatalog ∧
        "payout.create".data ∈ ["payout.create".data])) ∧
    (User.construct sampleProfile "tok".data ["payout.create".data] false
        "Name".data "a@b.com".data).can "unknown.permission".data =
      JsCanValue.jsBool false ∧
    (User.construct sampleProfile "tok".data ["payout.create".data] false
        "Name".data "a@b.com".data).can "toString".data =
      JsCanValue.protoMember "toString".data :=
  ⟨(user_can_iff_catalog_and_access sampleProfile "tok".data
      ["payout.create".data] false "Name".data "a@b.com".data
      "payout.create".data).1,
   (user_can_iff_catalog_and_access sampleProfile "tok".data
      ["payout.create".data] false "Name".data "a@b.com".data
      "unknown.permission".data).2.1 (by decide) (by decide),
   (user_can_iff_catalog_and_access sampleProfile "tok".data
      ["payout.create".data] false "Name".data "a@b.com".data
      "toString".data).2.2 (by decide) (by decide)⟩

/-! ## C6 -/

/-- C6: `checkPermission` returns `false` for every permission when the store
holds no user (it never throws — the embedding is a total function), and
returns exactly `user.can(p)` when a user is present. -/
theorem checkPermission_contract :
    (∀ (a : AfloatAuth) (perm : JStr), a.storeUser = none →
      a.checkPermission perm = JsCanValue.jsBool false) ∧
    (∀ (a : AfloatAuth) (u : User) (perm : JStr), a.storeUser = some u →
      a.checkPermission perm = u.can perm) := by
  constructor
  · intro a perm h
    unfold AfloatAuth.checkPermission
    rw [h]
  · intro a u perm h
    unfold AfloatAuth.checkPermission
    rw [h]

/-- An auth facade whose store holds no user. -/
def emptyAuth : AfloatAuth := { id := 0, storeUser := none, token := [] }

/-- C6 witness: both branches of the theorem at concrete inputs. -/
theorem checkPermission_contract_witness :
    emptyAuth.checkPermission "payout.approve".data = JsCanValue.jsBool false ∧
    (AfloatAuth.mk 1 (some sampleServerUser) "t".data).checkPermission
        "payout.create".data = sampleServerUser.can "payout.create".data :=
  ⟨checkPermission_contract.1 emptyAuth _ rfl,
   checkPermission_contract.2 _ sampleServerUser _ rfl⟩

/-! ## C10 -/

/-- An environment whose identity fetch succeeded with a payload carrying a
stray `resetPassword: true` key — accepted verbatim, since `handleResponse`
performs no validation of the response body. -/
def overrideEnv : ServerEnv :=
  { access := Except.ok ["payout.create".data]
    profile := Except.ok sampleProfileObj
    identity := Except.ok ⟨"Name".data, "a@b.com".data, some true⟩ }

/-- A successful `constructUser` yields a user whose `resetPassword` flag is
the stray `resetPassword` value of the fetched identity payload when present
(the spread `...identityData` comes after the `resetPassword: false` literal),
and the hard-coded `false` otherwise. -/
theorem constructUser_ok_resetPassword (ctx : ParseCtx) (env : ServerEnv)
    (token : JStr) (u : User) (idData : IdentityData)
    (hid : env.identity = Except.ok idData)
    (h : ServerTokenHandler.constructUser ctx env token = Except.ok u) :
    u.resetPassword = idData.resetPassword.getD false := by
  unfold ServerTokenHandler.constructUser at h
  by_cases ht : token = []
  · rw [if_pos ht] at h
    exact absurd h (by simp)
  · rw [if_neg ht] at h
    split at h
    · rename_i u' heq
      simp only [Except.ok.injEq] at h
      subst h
      unfold ServerTokenHandler.constructUserTry at heq
      split at heq
      · simp at heq
      · split at heq
        · simp at heq
        · split at heq
          · simp at heq
          · rename_i idv hidq
            rw [hid] at hidq
            simp only [Except.ok.injEq] at hidq
            subst hidq
            split at heq
            · simp at heq
            · split at heq
              · simp at heq
              · rename_i user hfp
                simp only [Except.ok.injEq] at heq
                subst heq
                unfold User.fromParts at hfp
                split at hfp
                · simp only [Option.some.injEq] at hfp
                  rw [← hfp]
                  rfl
                · simp at hfp
    · simp at h

/-- C10 counterexample: `constructUser` assembles the user from
`{token, profile, access, resetPassword: false, ...identityData}` with the
spread after the literal, and `handleResponse` does not validate the identity
response body — so a fetched payload carrying `resetPassword: true` produces a
SUCCESSFUL construction whose user is flagged for a forced password reset,
refuting the claim. -/
theorem constructUser_resetPassword_cex :
    ServerTokenHandler.constructUser sampleCtx overrideEnv "t".data =
      Except.ok (User.construct sampleProfile "t".data ["payout.create".data]
        true "Name".data "a@b.com".data) ∧
    (User.construct sampleProfile "t".data ["payout.create".data] true
      "Name".data "a@b.com".data).resetPassword = true := by
  refine ⟨by rfl, by rfl⟩

/-- C10 amended: the `resetPassword` flag of every user built by a successful
`ServerTokenHandler.constructUser` equals the stray `resetPassword` value
carried by the fetched identity payload when present — the object spread
`...identityData` follows the hard-coded `resetPassword: false` and so
overrides it — and is `false` otherwise. In particular, whenever the identity
response carries no `resetPassword` key (as its contract schema specifies),
server-side token resolution never produces a user flagged for a forced
password reset. -/
theorem constructUser_resetPassword_override :
    (∀ (ctx : ParseCtx) (env : ServerEnv) (token : JStr) (u : User)
        (idData : IdentityData),
      env.identity = Except.ok idData →
      ServerTokenHandler.constructUser ctx env token = Except.ok u →
      u.resetPassword = idData.resetPassword.getD false) ∧
    (∀ (ctx : ParseCtx) (env : ServerEnv) (token : JStr) (u : User)
        (idData : IdentityData),
      env.identity = Except.ok idData → idData.resetPassword = none →
      ServerTokenHandler.constructUser ctx env token = Except.ok u →
      u.resetPassword = false) := by
  constructor
  · intro ctx env token u idData hid h
    exact constructUser_ok_resetPassword ctx env token u idData hid h
  · intro ctx env token u idData hid hnone h
    rw [constructUser_ok_resetPassword ctx env token u idData hid h, hnone]
    rfl

/-- C10 witness: both parts of the amended theorem at concrete environments —
a payload without a stray key yields `resetPassword = false`, one carrying
`resetPassword: true` yields a flagged user. -/
theorem constructUser_resetPassword_override_witness :
    sampleServerUser.resetPassword = false ∧
    (User.construct sampleProfile "t".data ["payout.create".data] true
        "Name".data "a@b.com".data).resetPassword =
      ((some true : Option Bool).getD false) :=
  ⟨constructUser_resetPassword_override.2 sampleCtx sampleEnv "t".data
      sampleServerUser ⟨"Name".data, "a@b.com".data, none⟩ rfl rfl (by rfl),
   constructUser_resetPassword_override.1 sampleCtx overrideEnv "t".data
      (User.construct sampleProfile "t".data ["payout.create".data] true
        "Name".data "a@b.com".data)
      ⟨"Name".data, "a@b.com".data, some true⟩ rfl (by rfl)⟩

/-! ## C7 -/

/-- C7: `initializeServer` (1) rejects the empty token with the fixed message
whatever the fetch environment is — so before any fetch result matters;
(2) on success builds a brand-new facade (fresh object id, distinct from any
previously allocated instance such as the cached client one) whose in-memory
store holds the constructed user, and bumps the allocation counter;
(3) wraps any construction failure as a descriptive
`"Failed to initialize server auth: ..."` error; (4) in particular a failing
fetch (here the access fetch) aborts the whole construction with the doubly
wrapped message. -/
theorem initializeServer_contract :
    (∀ (ctx : ParseCtx) (statics : AuthStatics) (env : ServerEnv),
      AfloatAuth.initializeServer ctx statics [] env =
        Except.error "Token is required for server initialization") ∧
    (∀ (ctx : ParseCtx) (statics : AuthStatics) (token : JStr)
       (env : ServerEnv) (u : User), token ≠ [] →
      ServerTokenHandler.constructUser ctx env token = Except.ok u →
      AfloatAuth.initializeServer ctx statics token env =
        Except.ok (AfloatAuth.mk statics.nextId (some u) token,
          AuthStatics.mk (statics.nextId + 1)
            (some (AfloatAuth.mk statics.nextId (some u) token))
            statics.clientInstance) ∧
      (∀ a : AfloatAuth, statics.clientInstance = some a → a.id < statics.nextId →
        AfloatAuth.mk statics.nextId (some u) token ≠ a)) ∧
    (∀ (ctx : ParseCtx) (statics : AuthStatics) (token : JStr)
       (env : ServerEnv) (m : String), token ≠ [] →
      ServerTokenHandler.constructUser ctx env token = Except.error m →
      AfloatAuth.initializeServer ctx statics token env =
        Except.error ("Failed to initialize server auth: " ++ m)) ∧
    (∀ (ctx : ParseCtx) (statics : AuthStatics) (token : JStr)
       (env : ServerEnv) (m : String), token ≠ [] →
      env.access = Except.error m →
      AfloatAuth.initializeServer ctx statics token env =
        Except.error
          ("Failed to initialize server auth: Error constructing user: " ++ m)) := by
  refine ⟨?_, ?_, ?_, ?_⟩
  · intro ctx statics env
    unfold AfloatAuth.initializeServer
    rw [if_pos rfl]
  · intro ctx statics token env u ht h
    unfold AfloatAuth.initializeServer
    rw [if_neg ht, h]
    refine ⟨rfl, ?_⟩
    intro a _ hlt he
    have : statics.nextId = a.id := congrArg AfloatAuth.id he
    omega
  · intro ctx statics token env m ht h
    unfold AfloatAuth.initializeServer
    rw [if_neg ht, h]
  · intro ctx statics token env m ht h
    unfold AfloatAuth.initializeServer
    rw [if_neg ht]
    unfold ServerTokenHandler.constructUser
    rw [if_neg ht]
    unfold ServerTokenHandler.constructUserTry
    rw [h]
    show Except.error ("Failed to initialize server auth: " ++
      ("Error constructing user: " ++ m)) = _
    rw [← String.append_assoc]
    rfl

/-- An environment whose access fetch failed. -/
def sampleEnvErr : ServerEnv :=
  { access := Except.error "boom"
    profile := Except.ok sampleProfileObj
    identity := Except.ok ⟨"Name".data, "a@b.com".data, none⟩ }

/-- The static state used in the C7 witness: counter at 5, a cached client
instance with id 3. -/
def sampleStatics : AuthStatics :=
  AuthStatics.mk 5 none (some (AfloatAuth.mk 3 none []))

/-- C7 witness: all four parts of the theorem at concrete inputs. -/
theorem initializeServer_contract_witness :
    AfloatAuth.initializeServer sampleCtx sampleStatics [] sampleEnv =
      Except.error "Token is required for server initialization" ∧
    AfloatAuth.initializeServer sampleCtx sampleStatics "t".data sampleEnv =
      Except.ok (AfloatAuth.mk 5 (some sampleServerUser) "t".data,
        AuthStatics.mk 6 (some (AfloatAuth.mk 5 (some sampleServerUser) "t".data))
          (some (AfloatAuth.mk 3 none []))) ∧
    AfloatAuth.mk 5 (some sampleServerUser) "t".data ≠ AfloatAuth.mk 3 none [] ∧
    AfloatAuth.initializeServer sampleCtx sampleStatics "t".data sampleEnvErr =
      Except.error "Failed to initialize server auth: Error constructing user: boom" := by
  refine ⟨initializeServer_contract.1 sampleCtx sampleStatics sampleEnv, ?_, ?_, ?_⟩
  · exact (initializeServer_contract.2.1 sampleCtx sampleStatics "t".data
      sampleEnv sampleServerUser (by decide) (by rfl)).1
  · exact (initializeServer_contract.2.1 sampleCtx sampleStatics "t".data
      sampleEnv sampleServerUser (by decide) (by rfl)).2
      (AfloatAuth.mk 3 none []) rfl (by decide)
  · exact initializeServer_contract.2.2.2 sampleCtx sampleStatics "t".data
      sampleEnvErr "boom" (by decide) rfl

/-! ## C9 -/

/-- C9: when the msisdn parses as a phone number AND the channel is one of the
two bank channel codes with the msisdn in `SWIFTCODE:ACCOUNTNUMBER` form
resolving to a known bank, `Payout.contactInfo` returns the bank variant (the
bank branch overwrites the mobile result); the mobile variant is returned only
when the bank branch yields nothing. -/
theorem payout_contactInfo_prefers_bank :
    (∀ (ctx : ParseCtx) (d : PayoutData) (ph : PhoneNumber) (sw acc : JStr)
        (b : Bank),
      ctx.phoneFrom d.msisdn = some ph →
      (d.channel = Payout.bankChannelCode ∨ d.channel = Payout.vertoChannelCode) →
      splitJ [':'] (trimJ d.msisdn) = [sw, acc] →
      ctx.bankFromSWIFTCode sw = some b →
      Payout.contactInfoOf ctx d =
        some (ContactInfo.bank ⟨d.payeeName, b, acc⟩)) ∧
    (∀ (ctx : ParseCtx) (d : PayoutData) (m : MobileContactInfo),
      Payout.contactInfoOf ctx d = some (ContactInfo.mobile m) →
      ¬ ((d.channel = Payout.bankChannelCode ∨ d.channel = Payout.vertoChannelCode) ∧
        (ctx.bankFromSWIFTCode
          ((splitJ [':'] (trimJ d.msisdn)).headD [])).isSome = true)) := by
  constructor
  · intro ctx d ph sw acc b hphone hchan hsplit hswift
    simp only [Payout.contactInfoOf]
    rw [if_pos hchan, hsplit]
    simp only [List.headD_cons]
    rw [hswift]
    rfl
  · intro ctx d m h hcontra
    obtain ⟨hchan, hsome⟩ := hcontra
    simp only [Payout.contactInfoOf] at h
    rw [if_pos hchan] at h
    cases hsw : ctx.bankFromSWIFTCode ((splitJ [':'] (trimJ d.msisdn)).headD []) with
    | none => rw [hsw] at hsome; simp at hsome
    | some bank =>
      rw [hsw] at h
      simp at h

/-- The collaborator context of the C9 witness: the msisdn string parses as a
phone AND its prefix resolves as a SWIFT code. -/
def sampleBankCtx : ParseCtx :=
  { tzPhoneFrom := fun _ => none
    phoneFrom := fun _ => some ⟨"+255744963579".data⟩
    bankFromSWIFTCode := fun s =>
      if s = "CORUTZTZ".data then some ⟨"CRDB".data⟩ else none
    bankFromBankName := fun _ => none
    jsonParse := fun _ => Except.error () }

/-- C9 witness: the bank branch wins on a concrete record whose msisdn both
parses as a phone and resolves as `SWIFT:ACCOUNT`. -/
theorem payout_contactInfo_prefers_bank_witness :
    Payout.contactInfoOf sampleBankCtx samplePayoutData =
      some (ContactInfo.bank
        ⟨"Jane Smith".data, ⟨"CRDB".data⟩, "12345".data⟩) :=
  payout_contactInfo_prefers_bank.1 sampleBankCtx samplePayoutData
    ⟨"+255744963579".data⟩ "CORUTZTZ".data "12345".data ⟨"CRDB".data⟩
    (by decide) (by decide) (by decide) (by decide)

/-! ## C8 -/

/-- A structurally valid user whose profile has an empty `displayName`
(constructible, since the `User` constructor does not validate the profile's
contents). -/
def badProfileUser : User :=
  User.construct
    { id := "p1".data, firstName := none, lastName := none,
      displayName := [], phone := none, accountNo := "123".data, email := none }
    "t1".data ["payout.create".data] false "Name".data "a@b.com".data

/-- C8 counterexample: `fromJSON (toJSON u)` is `undefined` — not a `User` —
for a user with non-empty token, name and identity whose profile has an empty
`displayName`: `Profile.from` rejects the serialized profile, so the claim's
hypotheses are insufficient. -/
theorem user_json_roundtrip_cex :
    User.fromEnvelope sampleCtx (User.toJSON badProfileUser) = none ∧
    badProfileUser.token ≠ [] ∧ badProfileUser.name ≠ [] ∧
    badProfileUser.identity ≠ [] := by
  refine ⟨by rfl, by decide, by decide, by decide⟩

/-- C8 amended: for every constructed user whose token, name and identity are
non-empty and whose profile survives re-parsing (non-empty id, accountNo and
displayName, and a phone that is absent, null, or whose label — `"+"`-prefixed
if needed — re-parses), `fromJSON(toJSON(u))` returns a user with the same
token, name, identity and resetPassword flag, and with `can` agreeing with the
original on every permission string (in particular on the whole catalog). -/
theorem user_json_roundtrip (ctx : ParseCtx) (profile : Profile)
    (token : JStr) (access : List JStr) (resetPassword : Bool)
    (name identity : JStr)
    (htoken : token ≠ []) (hname : name ≠ []) (hident : identity ≠ [])
    (hpid : profile.id ≠ []) (hpacc : profile.accountNo ≠ [])
    (hpdisp : profile.displayName ≠ [])
    (hphone : ∀ ph : PhoneNumber, profile.phone = some (some ph) →
      (ctx.phoneFrom
        (if startsWithJ ['+'] ph.label then ph.label else '+' :: ph.label)).isSome
          = true) :
    ∃ u' : User,
      User.fromEnvelope ctx (User.toJSON
        (User.construct profile token access resetPassword name identity))
          = some u' ∧
      u'.token = token ∧ u'.name = name ∧ u'.identity = identity ∧
      u'.resetPassword = resetPassword ∧
      (∀ p : JStr, u'.can p =
        (User.construct profile token access resetPassword name identity).can p) := by
  obtain ⟨p', hp'⟩ :
      ∃ p', Profile.fromObj ctx (Profile.toObject profile) = some p' := by
    unfold Profile.fromObj
    rw [if_pos ⟨hpid, hpacc, hpdisp⟩]
    unfold Profile.create
    cases hph : profile.phone with
    | none =>
      simp only [Profile.toObject, hph]
      exact ⟨_, rfl⟩
    | some o =>
      cases o with
      | none =>
        simp only [Profile.toObject, hph]
        exact ⟨_, rfl⟩
      | some ph =>
        have hs := hphone ph hph
        obtain ⟨ph', hph'⟩ := Option.isSome_iff_exists.mp hs
        simp only [Profile.toObject, hph, hph', Option.map_some']
        exact ⟨_, rfl⟩
  have henv : (User.toJSON
      (User.construct profile token access resetPassword name identity)).profile
        = Profile.toObject profile := rfl
  have hmain : User.fromEnvelope ctx (User.toJSON
      (User.construct profile token access resetPassword name identity)) =
      some (User.construct p' token
        (((PermissionsCatalog.map (fun c => (c, access.contains c))).filter
          (fun kv => kv.2)).map (fun kv => kv.1)) resetPassword name identity) := by
    unfold User.fromEnvelope
    simp only [henv, hp']
    rw [if_pos ⟨htoken, hname, hident, Or.inl rfl⟩]
    rfl
  refine ⟨_, hmain, rfl, rfl, rfl, rfl, ?_⟩
  · intro p
    rw [can_construct, can_construct]
    by_cases hp : p ∈ PermissionsCatalog
    · rw [if_pos hp, if_pos hp]
      congr 1
      cases haq : access.contains p with
      | false =>
        have : ¬ (p ∈ ((PermissionsCatalog.map (fun c => (c, access.contains c))).filter
            (fun kv => kv.2)).map (fun kv => kv.1)) := by
          rw [mem_true_keys]
          rintro ⟨_, hacc⟩
          rw [haq] at hacc
          exact absurd hacc (by simp)
        simpa [List.elem_iff] using this
      | true =>
        have : p ∈ ((PermissionsCatalog.map (fun c => (c, access.contains c))).filter
            (fun kv => kv.2)).map (fun kv => kv.1) :=
          (mem_true_keys _ _ _).mpr ⟨hp, haq⟩
        simpa [List.elem_iff] using this
    · rw [if_neg hp, if_neg hp]

/-- C8 witness: the amended round trip at a concrete user (profile with no
phone, so the phone hypothesis is vacuous). -/
theorem user_json_roundtrip_witness :
    (User.fromEnvelope sampleCtx (User.toJSON
      (User.construct sampleProfile "tok".data ["payout.create".data] true
        "Name".data "a@b.com".data))).isSome = true := by
  obtain ⟨u', hu', _⟩ := user_json_roundtrip sampleCtx sampleProfile "tok".data
    ["payout.create".data] true "Name".data "a@b.com".data
    (by decide) (by decide) (by decide) (by decide) (by decide) (by decide)
    (by intro ph h; exact Option.noConfusion h)
  rw [hu']
  rfl

/-! ## Further string facts used by the narration round-trips -/

theorem not_startsWith_of_head {a b : Char} {p s : JStr} (h : b ≠ a) :
    startsWithJ (a :: p) (b :: s) = false := by
  simp only [startsWithJ, List.isPrefixOf]
  simp [beq_iff_eq]
  intro hn
  exact absurd hn.symm h

theorem startsWith_false_heads {p s : JStr} {a b : Char}
    (hp : p.head? = some a) (hs : s.head? = some b) (hab : b ≠ a) :
    startsWithJ p s = false := by
  cases p with
  | nil => simp at hp
  | cons a' p' =>
    cases s with
    | nil => simp at hs
    | cons b' s' =>
      simp only [List.head?_cons, Option.some.injEq] at hp hs
      subst hp
      subst hs
      exact not_startsWith_of_head hab

theorem startsWith_cons_ex {c : Char} {p s : JStr}
    (h : startsWithJ (c :: p) s = true) : ∃ t, s = c :: t := by
  cases s with
  | nil => simp [startsWithJ, List.isPrefixOf] at h
  | cons b t =>
    simp only [startsWithJ, List.isPrefixOf, Bool.and_eq_true, beq_iff_eq] at h
    exact ⟨t, by rw [h.1]⟩

theorem getLast?_cons_ne {c : Char} {l : JStr} (h : l ≠ []) :
    (c :: l).getLast? = l.getLast? := by
  cases l with
  | nil => simp at h
  | cons x xs => rw [List.getLast?_cons_cons]

theorem getLast?_append_right {x y : JStr} {c : Char}
    (hy : y.getLast? = some c) : (x ++ y).getLast? = some c := by
  rw [List.getLast?_append, hy]
  rfl

theorem head?_append_left {x y : JStr} {c : Char}
    (hx : x.head? = some c) : (x ++ y).head? = some c := by
  cases x with
  | nil => simp at hx
  | cons a t =>
    simp only [List.head?_cons, Option.some.injEq] at hx
    rw [List.cons_append, List.head?_cons, hx]

theorem toUpperJ_ne_nil {s : JStr} (h : s ≠ []) : toUpperJ s ≠ [] := by
  simpa [toUpperJ] using h

theorem space_not_mem_toUpper {s : JStr} (h : ∀ c ∈ s, c ≠ ' ') :
    ' ' ∉ toUpperJ s := by
  intro hmem
  obtain ⟨c, hc, hup⟩ := List.mem_map.mp hmem
  exact absurd ((upper_eq_space_iff c).mp hup) (h c hc)

theorem head?_toUpper_not_ws {s : JStr} {c : Char}
    (hh : ∀ d, s.head? = some d → isWsChar d = false)
    (h : (toUpperJ s).head? = some c) : isWsChar c = false := by
  rw [toUpperJ, List.head?_map] at h
  cases hs : s.head? with
  | none => rw [hs] at h; simp at h
  | some d =>
    rw [hs] at h
    simp only [Option.map_some', Option.some.injEq] at h
    rw [← h, isWs_upper]
    exact hh d hs

theorem getLast?_toUpper_not_ws {s : JStr} {c : Char}
    (hh : ∀ d, s.getLast? = some d → isWsChar d = false)
    (h : (toUpperJ s).getLast? = some c) : isWsChar c = false := by
  rw [toUpperJ, List.getLast?_map] at h
  cases hs : s.getLast? with
  | none => rw [hs] at h; simp at h
  | some d =>
    rw [hs] at h
    simp only [Option.map_some', Option.some.injEq] at h
    rw [← h, isWs_upper]
    exact hh d hs

theorem not_ws_ne_space {c : Char} (h : isWsChar c = false) : c ≠ ' ' := by
  intro hc
  subst hc
  simp [isWsChar] at h

/-- The joined title-cased words of a string whose first character is not a
space are non-empty. -/
theorem titleCase_ne_nil {c : Char} {t : JStr} (hc : c ≠ ' ') :
    joinJ [' '] ((splitJ [' '] (c :: t)).map capitalizeFirstLetter) ≠ [] := by
  obtain ⟨w, rest, hw⟩ := splitJ_single_cons_head (a := ' ') hc
  rw [hw]
  simp only [List.map_cons]
  exact joinJ_cons_ne_nil (by simp [capitalizeFirstLetter])

/-- Splitting the upper-cased string and title-casing each word is the same as
title-casing the words of the original. -/
theorem map_capitalize_split_upper (s : JStr) :
    (splitJ [' '] (toUpperJ s)).map capitalizeFirstLetter =
      (splitJ [' '] s).map capitalizeFirstLetter := by
  rw [splitJ_map_upper, List.map_map]
  apply List.map_congr_left
  intro w _
  exact capitalize_toUpper w

/-! ## C2 -/

/-- C2: generating a mobile payout narration from a contact with a non-empty,
trimmed name and a parseable phone number — formalized against the abstract
phone collaborator as: the trimmed label is non-empty and space-free and
parsing its upper-cased form returns the same phone — and parsing it back with
`getMobileContactDetails` recovers the phone unchanged and the title-cased
(first letter upper, rest lower, per word) form of the name. -/
theorem mobile_narration_roundtrip (ctx : ParseCtx) (data : MobileContactInfo)
    (hN1 : trimJ data.name = data.name) (hN2 : data.name ≠ [])
    (hL1 : trimJ data.phoneNumber.label ≠ [])
    (hLsp : ∀ c ∈ trimJ data.phoneNumber.label, c ≠ ' ')
    (hphi : ctx.tzPhoneFrom (toUpperJ (trimJ data.phoneNumber.label)) =
      some data.phoneNumber) :
    Narration.getMobileContactDetails ctx
      (Narration.generateMobilePayoutNarration data) =
      some ⟨titleCaseJ data.name, data.phoneNumber⟩ := by
  obtain ⟨N, ⟨L0⟩⟩ := data
  simp only at hN1 hN2 hL1 hLsp hphi ⊢
  set L := trimJ L0 with hLdef
  set U := toUpperJ L with hUdef
  set V := toUpperJ N with hVdef
  -- shape of the generated narration
  have hnarr : Narration.generateMobilePayoutNarration ⟨N, ⟨L0⟩⟩ =
      MOBILE_NARR_PREFIX ++ (' ' :: (U ++ (' ' :: V))) := by
    unfold Narration.generateMobilePayoutNarration
    simp only
    rw [hN1]
    simp only [toUpperJ, List.map_append]
    rw [show List.map jsUpperChar (trimJ MOBILE_NARR_PREFIX) = MOBILE_NARR_PREFIX
        from by decide,
      show List.map jsUpperChar [' '] = [' '] from by decide]
    simp [List.append_assoc]
    rfl
  -- end-of-string facts
  have hVne : V ≠ [] := toUpperJ_ne_nil hN2
  have hVlast : ∀ c, V.getLast? = some c → isWsChar c = false := by
    intro c hc
    refine getLast?_toUpper_not_ws ?_ hc
    intro d hd
    rw [← hN1] at hd
    exact trimJ_last_not_ws hd
  have hVhead : ∀ c, V.head? = some c → isWsChar c = false := by
    intro c hc
    refine head?_toUpper_not_ws ?_ hc
    intro d hd
    rw [← hN1] at hd
    exact trimJ_head_not_ws hd
  have hUne : U ≠ [] := toUpperJ_ne_nil hL1
  have hUhead : ∀ c, U.head? = some c → isWsChar c = false := by
    intro c hc
    exact head?_toUpper_not_ws (fun d hd => trimJ_head_not_ws hd) hc
  have hUsp : ' ' ∉ U := space_not_mem_toUpper hLsp
  obtain ⟨v0, v0t, hV⟩ : ∃ v0 v0t, V = v0 :: v0t := by
    cases hVc : V with
    | nil => exact absurd hVc hVne
    | cons a t => exact ⟨a, t, rfl⟩
  have hVlastSome : ∃ c, V.getLast? = some c := by
    cases hVl : V.getLast? with
    | none => exact absurd (List.getLast?_eq_none_iff.mp hVl) hVne
    | some c => exact ⟨c, rfl⟩
  obtain ⟨cV, hcV⟩ := hVlastSome
  obtain ⟨u0, ut, hU⟩ : ∃ u0 ut, U = u0 :: ut := by
    cases hUc : U with
    | nil => exact absurd hUc hUne
    | cons a t => exact ⟨a, t, rfl⟩
  have hheadN : (MOBILE_NARR_PREFIX ++ (' ' :: (U ++ (' ' :: V)))).head? =
      some 'P' := rfl
  have hlastN : (MOBILE_NARR_PREFIX ++ (' ' :: (U ++ (' ' :: V)))).getLast? =
      some cV := by
    apply getLast?_append_right
    rw [getLast?_cons_ne (by simp)]
    apply getLast?_append_right
    rw [getLast?_cons_ne hVne]
    exact hcV
  have htrim : trimJ (MOBILE_NARR_PREFIX ++ (' ' :: (U ++ (' ' :: V)))) =
      MOBILE_NARR_PREFIX ++ (' ' :: (U ++ (' ' :: V))) := by
    apply trimJ_eq_self_of
    · intro c hc
      rw [hheadN] at hc
      simp only [Option.some.injEq] at hc
      subst hc
      decide
    · intro c hc
      rw [hlastN] at hc
      simp only [Option.some.injEq] at hc
      subst hc
      exact hVlast cV hcV
  have heco : startsWithJ ECOBANK_PREFIX
      (MOBILE_NARR_PREFIX ++ (' ' :: (U ++ (' ' :: V)))) = false :=
    startsWith_false_heads (a := 'M') (by decide) hheadN (by decide)
  have hleg : startsWithJ LEGACY_MOBILE_NARR_PREFIX
      (MOBILE_NARR_PREFIX ++ (' ' :: (U ++ (' ' :: V)))) = false :=
    startsWith_false_heads (a := 'T') (by decide) hheadN (by decide)
  have hnorm : Narration.normNarr (MOBILE_NARR_PREFIX ++ (' ' :: (U ++ (' ' :: V)))) =
      MOBILE_NARR_PREFIX ++ (' ' :: (U ++ (' ' :: V))) := by
    unfold Narration.normNarr
    rw [htrim]
    simp only [heco, Bool.false_eq_true, if_false]
  have hcurpre : MOBILE_NARR_PREFIX.isPrefixOf
      (MOBILE_NARR_PREFIX ++ (' ' :: (U ++ (' ' :: V)))) = true := by
    rw [List.isPrefixOf_iff_prefix]
    exact List.prefix_append _ _
  have hcur : startsWithJ MOBILE_NARR_PREFIX
      (MOBILE_NARR_PREFIX ++ (' ' :: (U ++ (' ' :: V)))) = true := hcurpre
  have hbreak : breakOn MOBILE_NARR_PREFIX
      (MOBILE_NARR_PREFIX ++ (' ' :: (U ++ (' ' :: V)))) =
      some ([], ' ' :: (U ++ (' ' :: V))) := by
    rw [breakOn_at_start (by decide) hcurpre, List.drop_left]
  have hrepl : replaceFirstJ MOBILE_NARR_PREFIX []
      (MOBILE_NARR_PREFIX ++ (' ' :: (U ++ (' ' :: V)))) =
      ' ' :: (U ++ (' ' :: V)) := by
    unfold replaceFirstJ
    rw [hbreak]
    simp
  have htrim2 : trimJ (' ' :: (U ++ (' ' :: V))) = U ++ (' ' :: V) := by
    rw [trimJ_cons_ws (by decide)]
    apply trimJ_eq_self_of
    · intro c hc
      have hh : (U ++ (' ' :: V)).head? = some u0 :=
        head?_append_left (by rw [hU]; rfl)
      rw [hh] at hc
      simp only [Option.some.injEq] at hc
      subst hc
      exact hUhead u0 (by rw [hU]; rfl)
    · intro c hc
      have hl : (U ++ (' ' :: V)).getLast? = some cV := by
        apply getLast?_append_right
        rw [getLast?_cons_ne hVne]
        exact hcV
      rw [hl] at hc
      simp only [Option.some.injEq] at hc
      subst hc
      exact hVlast cV hcV
  have hsplit : splitJ [' '] (U ++ (' ' :: V)) = U :: splitJ [' '] V :=
    splitJ_single_append hUsp
  obtain ⟨n0, nt, hN⟩ : ∃ n0 nt, N = n0 :: nt := by
    cases hNc : N with
    | nil => exact absurd hNc hN2
    | cons a t => exact ⟨a, t, rfl⟩
  have hn0 : n0 ≠ ' ' := by
    apply not_ws_ne_space
    have : N.head? = some n0 := by rw [hN]; rfl
    rw [← hN1] at this
    exact trimJ_head_not_ws this
  have hcurrent : Narration.getMobileCurrent ctx
      (MOBILE_NARR_PREFIX ++ (' ' :: (U ++ (' ' :: V)))) =
      some ⟨titleCaseJ N, ⟨L0⟩⟩ := by
    unfold Narration.getMobileCurrent
    rw [hrepl, htrim2, hsplit]
    simp only [List.headD_cons, List.drop_succ_cons, List.drop_zero]
    rw [hphi]
    simp only
    rw [hVdef, map_capitalize_split_upper]
    have hne : joinJ [' '] ((splitJ [' '] N).map capitalizeFirstLetter) ≠ [] := by
      rw [hN]
      exact titleCase_ne_nil hn0
    rw [if_pos hne]
    rfl
  rw [hnarr]
  unfold Narration.getMobileContactDetails Narration.getMobileContactDetailsE
  simp only [hnorm, hleg, Bool.false_eq_true, if_false, hcur, if_true]
  exact hcurrent

/-- The collaborator context used by the narration witnesses: one known
TZ phone number and one known bank short name. -/
def narrCtx : ParseCtx :=
  { tzPhoneFrom := fun s =>
      if s = "+255123456789".data then some ⟨"+255123456789".data⟩ else none
    phoneFrom := fun _ => none
    bankFromSWIFTCode := fun s =>
      if s = "CORUTZTZ".data then some ⟨"CRDB".data⟩ else none
    bankFromBankName := fun s =>
      if s = "CRDB".data then some ⟨"CRDB".data⟩ else none
    jsonParse := fun _ => Except.error () }

/-- C2 witness: the round trip at a concrete contact, with the title-cased
name computed explicitly. -/
theorem mobile_narration_roundtrip_witness :
    Narration.getMobileContactDetails narrCtx
      (Narration.generateMobilePayoutNarration
        ⟨"John Doe".data, ⟨"+255123456789".data⟩⟩) =
      some ⟨titleCaseJ "John Doe".data, ⟨"+255123456789".data⟩⟩ ∧
    titleCaseJ "John Doe".data = "John Doe".data :=
  ⟨mobile_narration_roundtrip narrCtx ⟨"John Doe".data, ⟨"+255123456789".data⟩⟩
    (by decide) (by decide) (by decide) (by decide) (by decide),
   by decide⟩

/-! ## C3 -/

/-- C3 counterexample: the narration is upper-cased before being stored, so a
bank contact with the lower-case account number `"ab1234"` — non-empty after
trimming, with a resolvable bank short name — round-trips to the account
number `"AB1234"`, NOT to the same account number as the claim states. -/
theorem bank_narration_roundtrip_cex :
    Narration.getBankContactDetails narrCtx
      (Narration.generateBankPayoutNarration
        ⟨"Jane Smith".data, ⟨"CRDB".data⟩, "ab1234".data⟩) =
      some ⟨"Jane Smith".data, ⟨"CRDB".data⟩, "AB1234".data⟩ ∧
    "AB1234".data ≠ "ab1234".data := by
  constructor
  · decide
  · decide

/-- C3 amended: under the claim's hypotheses plus the conditions the
tokenizer needs (the trimmed short name and account number are space-free),
the round trip returns the same bank, the UPPER-CASED trimmed account number
(not the account number verbatim — see the counterexample), and the
title-cased account name. -/
theorem bank_narration_roundtrip (ctx : ParseCtx) (data : BankContactInfo)
    (hN1 : trimJ data.accName = data.accName) (hN2 : data.accName ≠ [])
    (hS1 : trimJ data.bank.shortName ≠ [])
    (hSsp : ∀ c ∈ trimJ data.bank.shortName, c ≠ ' ')
    (hA1 : trimJ data.accNo ≠ [])
    (hAsp : ∀ c ∈ trimJ data.accNo, c ≠ ' ')
    (hbank : ctx.bankFromBankName (toUpperJ (trimJ data.bank.shortName)) =
      some data.bank) :
    Narration.getBankContactDetails ctx
      (Narration.generateBankPayoutNarration data) =
      some ⟨titleCaseJ data.accName, data.bank, toUpperJ (trimJ data.accNo)⟩ := by
  obtain ⟨N, bank, accNo⟩ := data
  simp only at hN1 hN2 hS1 hSsp hA1 hAsp hbank ⊢
  set S := toUpperJ (trimJ bank.shortName) with hSdef
  set A := toUpperJ (trimJ accNo) with hAdef
  set V := toUpperJ N with hVdef
  have hnarr : Narration.generateBankPayoutNarration ⟨N, bank, accNo⟩ =
      BANK_NARR_PREFIX ++ (' ' :: (S ++ (' ' :: (A ++ (' ' :: V))))) := by
    unfold Narration.generateBankPayoutNarration
    simp only
    rw [hN1]
    simp only [toUpperJ, List.map_append]
    rw [show List.map jsUpperChar (trimJ BANK_NARR_PREFIX) = BANK_NARR_PREFIX
        from by decide,
      show List.map jsUpperChar [' '] = [' '] from by decide]
    simp [List.append_assoc]
    rfl
  have hVne : V ≠ [] := toUpperJ_ne_nil hN2
  have hVlast : ∀ c, V.getLast? = some c → isWsChar c = false := by
    intro c hc
    refine getLast?_toUpper_not_ws ?_ hc
    intro d hd
    rw [← hN1] at hd
    exact trimJ_last_not_ws hd
  have hSne : S ≠ [] := toUpperJ_ne_nil hS1
  have hShead : ∀ c, S.head? = some c → isWsChar c = false := fun c hc =>
    head?_toUpper_not_ws (fun d hd => trimJ_head_not_ws hd) hc
  have hSsp' : ' ' ∉ S := space_not_mem_toUpper hSsp
  have hAne : A ≠ [] := toUpperJ_ne_nil hA1
  have hAhead : ∀ c, A.head? = some c → isWsChar c = false := fun c hc =>
    head?_toUpper_not_ws (fun d hd => trimJ_head_not_ws hd) hc
  have hAsp' : ' ' ∉ A := space_not_mem_toUpper hAsp
  obtain ⟨cV, hcV⟩ : ∃ c, V.getLast? = some c := by
    cases hVl : V.getLast? with
    | none => exact absurd (List.getLast?_eq_none_iff.mp hVl) hVne
    | some c => exact ⟨c, rfl⟩
  obtain ⟨s0, st, hS⟩ : ∃ s0 st, S = s0 :: st := by
    cases hSc : S with
    | nil => exact absurd hSc hSne
    | cons a t => exact ⟨a, t, rfl⟩
  obtain ⟨a0, at0, hA⟩ : ∃ a0 at0, A = a0 :: at0 := by
    cases hAc : A with
    | nil => exact absurd hAc hAne
    | cons a t => exact ⟨a, t, rfl⟩
  have hheadN : (BANK_NARR_PREFIX ++
      (' ' :: (S ++ (' ' :: (A ++ (' ' :: V)))))).head? = some 'P' := rfl
  have hlastTail : (A ++ (' ' :: V)).getLast? = some cV := by
    apply getLast?_append_right
    rw [getLast?_cons_ne hVne]
    exact hcV
  have hlastMid : (S ++ (' ' :: (A ++ (' ' :: V)))).getLast? = some cV := by
    apply getLast?_append_right
    rw [getLast?_cons_ne (by simp)]
    exact hlastTail
  have hlastN : (BANK_NARR_PREFIX ++
      (' ' :: (S ++ (' ' :: (A ++ (' ' :: V)))))).getLast? = some cV := by
    apply getLast?_append_right
    rw [getLast?_cons_ne (by simp)]
    exact hlastMid
  have htrim : trimJ (BANK_NARR_PREFIX ++
      (' ' :: (S ++ (' ' :: (A ++ (' ' :: V)))))) =
      BANK_NARR_PREFIX ++ (' ' :: (S ++ (' ' :: (A ++ (' ' :: V))))) := by
    apply trimJ_eq_self_of
    · intro c hc
      rw [hheadN] at hc
      simp only [Option.some.injEq] at hc
      subst hc
      decide
    · intro c hc
      rw [hlastN] at hc
      simp only [Option.some.injEq] at hc
      subst hc
      exact hVlast cV hcV
  have heco : startsWithJ ECOBANK_PREFIX (BANK_NARR_PREFIX ++
      (' ' :: (S ++ (' ' :: (A ++ (' ' :: V)))))) = false :=
    startsWith_false_heads (a := 'M') (by decide) hheadN (by decide)
  have hleg : startsWithJ LEGACY_BANK_NARR_PREFIX (BANK_NARR_PREFIX ++
      (' ' :: (S ++ (' ' :: (A ++ (' ' :: V)))))) = false :=
    startsWith_false_heads (a := 'T') (by decide) hheadN (by decide)
  have hnorm : Narration.normNarr (BANK_NARR_PREFIX ++
      (' ' :: (S ++ (' ' :: (A ++ (' ' :: V)))))) =
      BANK_NARR_PREFIX ++ (' ' :: (S ++ (' ' :: (A ++ (' ' :: V))))) := by
    unfold Narration.normNarr
    rw [htrim]
    simp only [heco, Bool.false_eq_true, if_false]
  have hcurpre : BANK_NARR_PREFIX.isPrefixOf (BANK_NARR_PREFIX ++
      (' ' :: (S ++ (' ' :: (A ++ (' ' :: V)))))) = true := by
    rw [List.isPrefixOf_iff_prefix]
    exact List.prefix_append _ _
  have hcur : startsWithJ BANK_NARR_PREFIX (BANK_NARR_PREFIX ++
      (' ' :: (S ++ (' ' :: (A ++ (' ' :: V)))))) = true := hcurpre
  have hbreak : breakOn BANK_NARR_PREFIX (BANK_NARR_PREFIX ++
      (' ' :: (S ++ (' ' :: (A ++ (' ' :: V)))))) =
      some ([], ' ' :: (S ++ (' ' :: (A ++ (' ' :: V))))) := by
    rw [breakOn_at_start (by decide) hcurpre, List.drop_left]
  have hrepl : replaceFirstJ BANK_NARR_PREFIX [] (BANK_NARR_PREFIX ++
      (' ' :: (S ++ (' ' :: (A ++ (' ' :: V)))))) =
      ' ' :: (S ++ (' ' :: (A ++ (' ' :: V)))) := by
    unfold replaceFirstJ
    rw [hbreak]
    simp
  have htrim2 : trimJ (' ' :: (S ++ (' ' :: (A ++ (' ' :: V))))) =
      S ++ (' ' :: (A ++ (' ' :: V))) := by
    rw [trimJ_cons_ws (by decide)]
    apply trimJ_eq_self_of
    · intro c hc
      have hh : (S ++ (' ' :: (A ++ (' ' :: V)))).head? = some s0 :=
        head?_append_left (by rw [hS]; rfl)
      rw [hh] at hc
      simp only [Option.some.injEq] at hc
      subst hc
      exact hShead s0 (by rw [hS]; rfl)
    · intro c hc
      rw [hlastMid] at hc
      simp only [Option.some.injEq] at hc
      subst hc
      exact hVlast cV hcV
  have hsplit : splitJ [' '] (S ++ (' ' :: (A ++ (' ' :: V)))) =
      S :: A :: splitJ [' '] V := by
    rw [splitJ_single_append hSsp', splitJ_single_append hAsp']
  obtain ⟨n0, nt, hN⟩ : ∃ n0 nt, N = n0 :: nt := by
    cases hNc : N with
    | nil => exact absurd hNc hN2
    | cons a t => exact ⟨a, t, rfl⟩
  have hn0 : n0 ≠ ' ' := by
    apply not_ws_ne_space
    have hh : N.head? = some n0 := by rw [hN]; rfl
    rw [← hN1] at hh
    exact trimJ_head_not_ws hh
  have hcurrent : Narration.getBankCurrent ctx (BANK_NARR_PREFIX ++
      (' ' :: (S ++ (' ' :: (A ++ (' ' :: V)))))) =
      some ⟨titleCaseJ N, bank, A⟩ := by
    unfold Narration.getBankCurrent
    rw [hrepl, htrim2, hsplit]
    simp only [List.headD_cons, List.drop_succ_cons, List.drop_zero]
    rw [hbank]
    rw [hVdef, map_capitalize_split_upper]
    have hne : joinJ [' '] ((splitJ [' '] N).map capitalizeFirstLetter) ≠ [] := by
      rw [hN]
      exact titleCase_ne_nil hn0
    simp only [List.get?_cons_succ, List.get?_cons_zero]
    rw [if_pos ⟨hne, hAne⟩]
    rfl
  rw [hnarr]
  unfold Narration.getBankContactDetails Narration.getBankContactDetailsE
  simp only [hnorm, hleg, Bool.false_eq_true, if_false, hcur, if_true]
  exact hcurrent

/-- C3 witness: the amended round trip at a concrete bank contact whose
account number is already upper-case, with the title-cased name computed. -/
theorem bank_narration_roundtrip_witness :
    Narration.getBankContactDetails narrCtx
      (Narration.generateBankPayoutNarration
        ⟨"Jane Smith".data, ⟨"CRDB".data⟩, "1234567890".data⟩) =
      some ⟨titleCaseJ "Jane Smith".data, ⟨"CRDB".data⟩,
        toUpperJ (trimJ "1234567890".data)⟩ ∧
    titleCaseJ "Jane Smith".data = "Jane Smith".data ∧
    toUpperJ (trimJ "1234567890".data) = "1234567890".data :=
  ⟨bank_narration_roundtrip narrCtx
    ⟨"Jane Smith".data, ⟨"CRDB".data⟩, "1234567890".data⟩
    (by decide) (by decide) (by decide) (by decide) (by decide) (by decide)
    (by decide),
   by decide, by decide⟩

/-! ## C4: evaluation lemmas for the legacy narration formats -/

theorem breakOn_arrow_space {j : JStr} (hjno : breakOn "=>".data j = none) :
    breakOn "=>".data (' ' :: j) = none := by
  have hpre : ("=>".data).isPrefixOf (' ' :: j) = false := by
    show List.isPrefixOf ['=', '>'] (' ' :: j) = false
    simp [List.isPrefixOf]
  unfold breakOn
  rw [if_neg (by simp [hpre]), hjno]
  rfl

theorem splitJ_arrow_bank {j : JStr} (hjno : breakOn "=>".data j = none) :
    splitJ "=>".data ("TO_BANK => ".data ++ j) = ["TO_BANK ".data, ' ' :: j] := by
  have hbr : breakOn "=>".data ("TO_BANK => ".data ++ j) =
      some ("TO_BANK ".data, ' ' :: j) := rfl
  rw [splitJ_some (by decide) hbr,
    splitJ_none (by decide) (breakOn_arrow_space hjno)]

theorem splitJ_arrow_momo {j : JStr} (hjno : breakOn "=>".data j = none) :
    splitJ "=>".data ("TO_MOMO => ".data ++ j) = ["TO_MOMO ".data, ' ' :: j] := by
  have hbr : breakOn "=>".data ("TO_MOMO => ".data ++ j) =
      some ("TO_MOMO ".data, ' ' :: j) := rfl
  rw [splitJ_some (by decide) hbr,
    splitJ_none (by decide) (breakOn_arrow_space hjno)]

theorem getBank_route_error (ctx : ParseCtx) (s : JStr)
    (hstart : startsWithJ LEGACY_BANK_NARR_PREFIX (Narration.normNarr s) = true)
    (herr : Narration.getBankLegacy ctx (Narration.normNarr s) = Except.error ()) :
    Narration.getBankContactDetails ctx s = none := by
  unfold Narration.getBankContactDetails Narration.getBankContactDetailsE
  simp [hstart, herr]

theorem getBank_route_none (ctx : ParseCtx) (s : JStr)
    (hstart : startsWithJ LEGACY_BANK_NARR_PREFIX (Narration.normNarr s) = true)
    (hnone : Narration.getBankLegacy ctx (Narration.normNarr s) = Except.ok none)
    (hcur : startsWithJ BANK_NARR_PREFIX (Narration.normNarr s) = false) :
    Narration.getBankContactDetails ctx s = none := by
  unfold Narration.getBankContactDetails Narration.getBankContactDetailsE
  simp [hstart, hnone, hcur]

theorem getBank_route_some (ctx : ParseCtx) (s : JStr) (r : BankContactInfo)
    (hstart : startsWithJ LEGACY_BANK_NARR_PREFIX (Narration.normNarr s) = true)
    (hsome : Narration.getBankLegacy ctx (Narration.normNarr s) =
      Except.ok (some r)) :
    Narration.getBankContactDetails ctx s = some r := by
  unfold Narration.getBankContactDetails Narration.getBankContactDetailsE
  simp [hstart, hsome]

theorem getMobile_route_error (ctx : ParseCtx) (s : JStr)
    (hstart : startsWithJ LEGACY_MOBILE_NARR_PREFIX (Narration.normNarr s) = true)
    (herr : Narration.getMobileLegacy ctx (Narration.normNarr s) =
      Except.error ()) :
    Narration.getMobileContactDetails ctx s = none := by
  unfold Narration.getMobileContactDetails Narration.getMobileContactDetailsE
  simp [hstart, herr]

theorem getMobile_route_none (ctx : ParseCtx) (s : JStr)
    (hstart : startsWithJ LEGACY_MOBILE_NARR_PREFIX (Narration.normNarr s) = true)
    (hnone : Narration.getMobileLegacy ctx (Narration.normNarr s) =
      Except.ok none)
    (hcur : startsWithJ MOBILE_NARR_PREFIX (Narration.normNarr s) = false) :
    Narration.getMobileContactDetails ctx s = none := by
  unfold Narration.getMobileContactDetails Narration.getMobileContactDetailsE
  simp [hstart, hnone, hcur]

theorem getMobile_route_some (ctx : ParseCtx) (s : JStr) (r : MobileContactInfo)
    (hstart : startsWithJ LEGACY_MOBILE_NARR_PREFIX (Narration.normNarr s) = true)
    (hsome : Narration.getMobileLegacy ctx (Narration.normNarr s) =
      Except.ok (some r)) :
    Narration.getMobileContactDetails ctx s = some r := by
  unfold Narration.getMobileContactDetails Narration.getMobileContactDetailsE
  simp [hstart, hsome]

theorem getBankLegacy_no_sep (ctx : ParseCtx) {narr : JStr}
    (hno : breakOn "=>".data narr = none) :
    Narration.getBankLegacy ctx narr = Except.error () := by
  unfold Narration.getBankLegacy
  rw [splitJ_none (by decide) hno]
  rfl

theorem getBankLegacy_badjson (ctx : ParseCtx) {narr second : JStr}
    (hsec : (splitJ "=>".data narr).get? 1 = some second)
    (hbad : ctx.jsonParse (trimJ second) = Except.error ()) :
    Narration.getBankLegacy ctx narr = Except.error () := by
  unfold Narration.getBankLegacy
  simp only [hsec, hbad]

theorem getBankLegacy_guard_fail (ctx : ParseCtx) {narr second : JStr}
    {m : List (JStr × JStr)}
    (hsec : (splitJ "=>".data narr).get? 1 = some second)
    (hok : ctx.jsonParse (trimJ second) = Except.ok m)
    (hfail : m.lookup "account_number".data = none ∨
      m.lookup "account_name".data = none ∨
      (m.lookup "swift_code".data).bind ctx.bankFromSWIFTCode = none) :
    Narration.getBankLegacy ctx narr = Except.ok none := by
  unfold Narration.getBankLegacy
  simp only [hsec, hok]
  rcases hfail with hf | hf | hf
  · simp [hf]
  · cases ha : m.lookup "account_number".data <;> simp [ha, hf]
  · cases ha : m.lookup "account_number".data <;>
      cases hn : m.lookup "account_name".data <;>
      simp [ha, hn, hf]

theorem getBankLegacy_success (ctx : ParseCtx) {narr second : JStr}
    {m : List (JStr × JStr)} {a n : JStr} {b : Bank}
    (hsec : (splitJ "=>".data narr).get? 1 = some second)
    (hok : ctx.jsonParse (trimJ second) = Except.ok m)
    (haN : m.lookup "account_number".data = some a) (haNe : a ≠ [])
    (hnN : m.lookup "account_name".data = some n) (hnNe : n ≠ [])
    (hb : (m.lookup "swift_code".data).bind ctx.bankFromSWIFTCode = some b) :
    Narration.getBankLegacy ctx narr = Except.ok (some ⟨n, b, a⟩) := by
  unfold Narration.getBankLegacy
  simp only [hsec, hok, haN, hnN, hb]
  rw [if_pos ⟨haNe, hnNe⟩]

theorem getMobileLegacy_no_sep (ctx : ParseCtx) {narr : JStr}
    (hno : breakOn "=>".data narr = none) :
    Narration.getMobileLegacy ctx narr = Except.error () := by
  unfold Narration.getMobileLegacy
  rw [splitJ_none (by decide) hno]
  rfl

theorem getMobileLegacy_badjson (ctx : ParseCtx) {narr second : JStr}
    (hsec : (splitJ "=>".data narr).get? 1 = some second)
    (hbad : ctx.jsonParse (trimJ second) = Except.error ()) :
    Narration.getMobileLegacy ctx narr = Except.error () := by
  unfold Narration.getMobileLegacy
  simp only [hsec, hbad]

theorem getMobileLegacy_guard_fail (ctx : ParseCtx) {narr second : JStr}
    {m : List (JStr × JStr)}
    (hsec : (splitJ "=>".data narr).get? 1 = some second)
    (hok : ctx.jsonParse (trimJ second) = Except.ok m)
    (hfail : (m.lookup "phone_number".data).bind ctx.tzPhoneFrom = none ∨
      joinJ [' '] (((splitJ [' '] ((m.lookup "username".data).getD [])).filter
        (fun w => decide (trimJ w ≠ []))).map capitalizeFirstLetter) = []) :
    Narration.getMobileLegacy ctx narr = Except.ok none := by
  unfold Narration.getMobileLegacy
  simp only [hsec, hok]
  rcases hfail with hf | hf
  · simp [hf]
  · cases hp : (m.lookup "phone_number".data).bind ctx.tzPhoneFrom <;>
      simp_all

theorem getMobileLegacy_success (ctx : ParseCtx) {narr second : JStr}
    {m : List (JStr × JStr)} {ph : PhoneNumber}
    (hsec : (splitJ "=>".data narr).get? 1 = some second)
    (hok : ctx.jsonParse (trimJ second) = Except.ok m)
    (hph : (m.lookup "phone_number".data).bind ctx.tzPhoneFrom = some ph)
    (hun : joinJ [' '] (((splitJ [' '] ((m.lookup "username".data).getD [])).filter
      (fun w => decide (trimJ w ≠ []))).map capitalizeFirstLetter) ≠ []) :
    Narration.getMobileLegacy ctx narr = Except.ok
      (some ⟨joinJ [' '] (((splitJ [' ']
        ((m.lookup "username".data).getD [])).filter
        (fun w => decide (trimJ w ≠ []))).map capitalizeFirstLetter), ph⟩) := by
  unfold Narration.getMobileLegacy
  simp only [hsec, hok, hph]
  rw [if_pos hun]

theorem normNarr_legacy_bank {j : JStr} (hj1 : trimJ j = j) (hj2 : j ≠ []) :
    Narration.normNarr ("TO_BANK => ".data ++ j) = "TO_BANK => ".data ++ j := by
  obtain ⟨cj, hcj⟩ : ∃ c, j.getLast? = some c := by
    cases hl : j.getLast? with
    | none => exact absurd (List.getLast?_eq_none_iff.mp hl) hj2
    | some c => exact ⟨c, rfl⟩
  have hlast : ("TO_BANK => ".data ++ j).getLast? = some cj :=
    getLast?_append_right hcj
  have hcjw : isWsChar cj = false := by
    rw [← hj1] at hcj
    exact trimJ_last_not_ws hcj
  have htrim : trimJ ("TO_BANK => ".data ++ j) = "TO_BANK => ".data ++ j := by
    apply trimJ_eq_self_of
    · intro c hc
      have : c = 'T' := by
        have hh : ("TO_BANK => ".data ++ j).head? = some 'T' := rfl
        rw [hh] at hc
        exact (Option.some.injEq _ _ ▸ hc).symm
      subst this
      decide
    · intro c hc
      rw [hlast] at hc
      simp only [Option.some.injEq] at hc
      subst hc
      exact hcjw
  unfold Narration.normNarr
  rw [htrim]
  have heco : startsWithJ ECOBANK_PREFIX ("TO_BANK => ".data ++ j) = false :=
    startsWith_false_heads (a := 'M') (by decide) rfl (by decide)
  simp only [heco, Bool.false_eq_true, if_false]

theorem normNarr_legacy_momo {j : JStr} (hj1 : trimJ j = j) (hj2 : j ≠ []) :
    Narration.normNarr ("TO_MOMO => ".data ++ j) = "TO_MOMO => ".data ++ j := by
  obtain ⟨cj, hcj⟩ : ∃ c, j.getLast? = some c := by
    cases hl : j.getLast? with
    | none => exact absurd (List.getLast?_eq_none_iff.mp hl) hj2
    | some c => exact ⟨c, rfl⟩
  have hlast : ("TO_MOMO => ".data ++ j).getLast? = some cj :=
    getLast?_append_right hcj
  have hcjw : isWsChar cj = false := by
    rw [← hj1] at hcj
    exact trimJ_last_not_ws hcj
  have htrim : trimJ ("TO_MOMO => ".data ++ j) = "TO_MOMO => ".data ++ j := by
    apply trimJ_eq_self_of
    · intro c hc
      have : c = 'T' := by
        have hh : ("TO_MOMO => ".data ++ j).head? = some 'T' := rfl
        rw [hh] at hc
        exact (Option.some.injEq _ _ ▸ hc).symm
      subst this
      decide
    · intro c hc
      rw [hlast] at hc
      simp only [Option.some.injEq] at hc
      subst hc
      exact hcjw
  unfold Narration.normNarr
  rw [htrim]
  have heco : startsWithJ ECOBANK_PREFIX ("TO_MOMO => ".data ++ j) = false :=
    startsWith_false_heads (a := 'M') (by decide) rfl (by decide)
  simp only [heco, Bool.false_eq_true, if_false]

theorem startsWith_legacy_bank (j : JStr) :
    startsWithJ LEGACY_BANK_NARR_PREFIX ("TO_BANK => ".data ++ j) = true := by
  show List.isPrefixOf "TO_BANK".data ("TO_BANK => ".data ++ j) = true
  rw [List.isPrefixOf_iff_prefix]
  exact ⟨" => ".data ++ j, by rw [← List.append_assoc]; rfl⟩

theorem startsWith_legacy_momo (j : JStr) :
    startsWithJ LEGACY_MOBILE_NARR_PREFIX ("TO_MOMO => ".data ++ j) = true := by
  show List.isPrefixOf "TO_MOMO".data ("TO_MOMO => ".data ++ j) = true
  rw [List.isPrefixOf_iff_prefix]
  exact ⟨" => ".data ++ j, by rw [← List.append_assoc]; rfl⟩

/-! ## C4 -/

/-- C4: the two narration parsers are total (they return `Option`, the
embedding of the `try`/`catch` that swallows every thrown error) and behave as
the spec says on the legacy JSON formats. Bank side: (1) a well-formed
`"TO_BANK => {json}"` narration whose JSON object carries non-empty
`account_number` and `account_name` and a resolvable `swift_code` parses to
the corresponding `BankContactInfo`; it yields `none` — never a propagated
exception — when (2) the `"=>"` separator is absent (the `undefined[1].trim()`
throw is caught), (3) the JSON is malformed (the `JSON.parse` throw is
caught), or (4) a required key is missing or the bank is unresolvable.
Mobile side (5)-(8): the same for `"TO_MOMO => {json}"` with `phone_number`
and `username`, where the recovered username is whitespace-normalized and
title-cased, and an unparseable phone number or empty cleaned username yields
`none`. -/
theorem legacy_narration_parsing :
    (∀ (ctx : ParseCtx) (j : JStr) (m : List (JStr × JStr)) (a n : JStr)
        (b : Bank),
      trimJ j = j → j ≠ [] → breakOn "=>".data j = none →
      ctx.jsonParse j = Except.ok m →
      m.lookup "account_number".data = some a → a ≠ [] →
      m.lookup "account_name".data = some n → n ≠ [] →
      (m.lookup "swift_code".data).bind ctx.bankFromSWIFTCode = some b →
      Narration.getBankContactDetails ctx ("TO_BANK => ".data ++ j) =
        some ⟨n, b, a⟩) ∧
    (∀ (ctx : ParseCtx) (s : JStr),
      startsWithJ LEGACY_BANK_NARR_PREFIX (Narration.normNarr s) = true →
      breakOn "=>".data (Narration.normNarr s) = none →
      Narration.getBankContactDetails ctx s = none) ∧
    (∀ (ctx : ParseCtx) (s second : JStr),
      startsWithJ LEGACY_BANK_NARR_PREFIX (Narration.normNarr s) = true →
      (splitJ "=>".data (Narration.normNarr s)).get? 1 = some second →
      ctx.jsonParse (trimJ second) = Except.error () →
      Narration.getBankContactDetails ctx s = none) ∧
    (∀ (ctx : ParseCtx) (s second : JStr) (m : List (JStr × JStr)),
      startsWithJ LEGACY_BANK_NARR_PREFIX (Narration.normNarr s) = true →
      (splitJ "=>".data (Narration.normNarr s)).get? 1 = some second →
      ctx.jsonParse (trimJ second) = Except.ok m →
      (m.lookup "account_number".data = none ∨
        m.lookup "account_name".data = none ∨
        (m.lookup "swift_code".data).bind ctx.bankFromSWIFTCode = none) →
      Narration.getBankContactDetails ctx s = none) ∧
    (∀ (ctx : ParseCtx) (j : JStr) (m : List (JStr × JStr)) (ph : PhoneNumber),
      trimJ j = j → j ≠ [] → breakOn "=>".data j = none →
      ctx.jsonParse j = Except.ok m →
      (m.lookup "phone_number".data).bind ctx.tzPhoneFrom = some ph →
      joinJ [' '] (((splitJ [' ']
        ((m.lookup "username".data).getD [])).filter
        (fun w => decide (trimJ w ≠ []))).map capitalizeFirstLetter) ≠ [] →
      Narration.getMobileContactDetails ctx ("TO_MOMO => ".data ++ j) =
        some ⟨joinJ [' '] (((splitJ [' ']
          ((m.lookup "username".data).getD [])).filter
          (fun w => decide (trimJ w ≠ []))).map capitalizeFirstLetter), ph⟩) ∧
    (∀ (ctx : ParseCtx) (s : JStr),
      startsWithJ LEGACY_MOBILE_NARR_PREFIX (Narration.normNarr s) = true →
      breakOn "=>".data (Narration.normNarr s) = none →
      Narration.getMobileContactDetails ctx s = none) ∧
    (∀ (ctx : ParseCtx) (s second : JStr),
      startsWithJ LEGACY_MOBILE_NARR_PREFIX (Narration.normNarr s) = true →
      (splitJ "=>".data (Narration.normNarr s)).get? 1 = some second →
      ctx.jsonParse (trimJ second) = Except.error () →
      Narration.getMobileContactDetails ctx s = none) ∧
    (∀ (ctx : ParseCtx) (s second : JStr) (m : List (JStr × JStr)),
      startsWithJ LEGACY_MOBILE_NARR_PREFIX (Narration.normNarr s) = true →
      (splitJ "=>".data (Narration.normNarr s)).get? 1 = some second →
      ctx.jsonParse (trimJ second) = Except.ok m →
      ((m.lookup "phone_number".data).bind ctx.tzPhoneFrom = none ∨
        joinJ [' '] (((splitJ [' ']
          ((m.lookup "username".data).getD [])).filter
          (fun w => decide (trimJ w ≠ []))).map capitalizeFirstLetter) = []) →
      Narration.getMobileContactDetails ctx s = none) := by
  refine ⟨?_, ?_, ?_, ?_, ?_, ?_, ?_, ?_⟩
  · intro ctx j m a n b hj1 hj2 hjno hok ha hane hn hnne hb
    have hnorm := normNarr_legacy_bank hj1 hj2
    have hsec : (splitJ "=>".data
        (Narration.normNarr ("TO_BANK => ".data ++ j))).get? 1 =
        some (' ' :: j) := by
      rw [hnorm, splitJ_arrow_bank hjno]
      rfl
    have hok' : ctx.jsonParse (trimJ (' ' :: j)) = Except.ok m := by
      rw [trimJ_cons_ws (by decide), hj1]
      exact hok
    exact getBank_route_some ctx _ _
      (by rw [hnorm]; exact startsWith_legacy_bank j)
      (getBankLegacy_success ctx hsec hok' ha hane hn hnne hb)
  · intro ctx s hstart hno
    exact getBank_route_error ctx s hstart (getBankLegacy_no_sep ctx hno)
  · intro ctx s second hstart hsec hbad
    exact getBank_route_error ctx s hstart (getBankLegacy_badjson ctx hsec hbad)
  · intro ctx s second m hstart hsec hok hfail
    obtain ⟨t, ht⟩ := startsWith_cons_ex (c := 'T') hstart
    have hcur : startsWithJ BANK_NARR_PREFIX (Narration.normNarr s) = false := by
      rw [ht]
      exact not_startsWith_of_head (by decide)
    exact getBank_route_none ctx s hstart
      (getBankLegacy_guard_fail ctx hsec hok hfail) hcur
  · intro ctx j m ph hj1 hj2 hjno hok hph hun
    have hnorm := normNarr_legacy_momo hj1 hj2
    have hsec : (splitJ "=>".data
        (Narration.normNarr ("TO_MOMO => ".data ++ j))).get? 1 =
        some (' ' :: j) := by
      rw [hnorm, splitJ_arrow_momo hjno]
      rfl
    have hok' : ctx.jsonParse (trimJ (' ' :: j)) = Except.ok m := by
      rw [trimJ_cons_ws (by decide), hj1]
      exact hok
    exact getMobile_route_some ctx _ _
      (by rw [hnorm]; exact startsWith_legacy_momo j)
      (getMobileLegacy_success ctx hsec hok' hph hun)
  · intro ctx s hstart hno
    exact getMobile_route_error ctx s hstart (getMobileLegacy_no_sep ctx hno)
  · intro ctx s second hstart hsec hbad
    exact getMobile_route_error ctx s hstart
      (getMobileLegacy_badjson ctx hsec hbad)
  · intro ctx s second m hstart hsec hok hfail
    obtain ⟨t, ht⟩ := startsWith_cons_ex (c := 'T') hstart
    have hcur : startsWithJ MOBILE_NARR_PREFIX (Narration.normNarr s) = false := by
      rw [ht]
      exact not_startsWith_of_head (by decide)
    exact getMobile_route_none ctx s hstart
      (getMobileLegacy_guard_fail ctx hsec hok hfail) hcur

/-- The flat JSON object behind the bank legacy witness narration. -/
def bankJsonMap : List (JStr × JStr) :=
  [("account_number".data, "1234567890".data),
   ("account_name".data, "Jane Smith".data),
   ("swift_code".data, "CORUTZTZ".data)]

/-- The flat JSON object behind the mobile legacy witness narration. -/
def momoJsonMap : List (JStr × JStr) :=
  [("phone_number".data, "+255123456789".data),
   ("username".data, "john  doe".data)]

/-- The collaborator context of the C4 witness. The JSON payload texts are
opaque to the model (the parser is abstract), so stand-in names are used. -/
def legacyCtx : ParseCtx :=
  { tzPhoneFrom := fun s =>
      if s = "+255123456789".data then some ⟨"+255123456789".data⟩ else none
    phoneFrom := fun _ => none
    bankFromSWIFTCode := fun s =>
      if s = "CORUTZTZ".data then some ⟨"CRDB".data⟩ else none
    bankFromBankName := fun _ => none
    jsonParse := fun s =>
      if s = "json_bank_payload".data then Except.ok bankJsonMap
      else if s = "json_momo_payload".data then Except.ok momoJsonMap
      else Except.error () }

/-- C4 witness: the well-formed legacy narrations parse, and the
separator-free and malformed ones return `undefined`, at concrete inputs. -/
theorem legacy_narration_parsing_witness :
    Narration.getBankContactDetails legacyCtx
      ("TO_BANK => ".data ++ "json_bank_payload".data) =
      some ⟨"Jane Smith".data, ⟨"CRDB".data⟩, "1234567890".data⟩ ∧
    Narration.getBankContactDetails legacyCtx
      "TO_BANK no separator here".data = none ∧
    Narration.getBankContactDetails legacyCtx
      "TO_BANK => garbage!".data = none ∧
    Narration.getMobileContactDetails legacyCtx
      ("TO_MOMO => ".data ++ "json_momo_payload".data) =
      some ⟨"John Doe".data, ⟨"+255123456789".data⟩⟩ ∧
    Narration.getMobileContactDetails legacyCtx
      "TO_MOMO => garbage!".data = none := by
  refine ⟨?_, ?_, ?_, ?_, ?_⟩
  · exact legacy_narration_parsing.1 legacyCtx "json_bank_payload".data
      bankJsonMap "1234567890".data "Jane Smith".data ⟨"CRDB".data⟩
      (by decide) (by decide) (by decide) (by rfl) (by decide) (by decide)
      (by decide) (by decide) (by decide)
  · exact legacy_narration_parsing.2.1 legacyCtx
      "TO_BANK no separator here".data (by decide) (by decide)
  · exact legacy_narration_parsing.2.2.1 legacyCtx
      "TO_BANK => garbage!".data " garbage!".data
      (by decide) (by decide) (by rfl)
  · exact legacy_narration_parsing.2.2.2.2.1 legacyCtx "json_momo_payload".data
      momoJsonMap ⟨"+255123456789".data⟩
      (by decide) (by decide) (by decide) (by rfl) (by decide) (by decide)
  · exact legacy_narration_parsing.2.2.2.2.2.2.1 legacyCtx
      "TO_MOMO => garbage!".data " garbage!".data
      (by decide) (by decide) (by rfl)
